import Mathlib

/-!
# Verification of the Keno provably-fair draw and settlement engine

Shallow embedding of the repository's core services:

* `src/src/services/rng.js` — `RNGService` (`sampleWithoutReplacement`,
  `getRandomIndex`, `rotateServerSeed`, `verifyDraw`);
* `src/src/models/paytable.js` — `PaytableService` (`calculatePayout`,
  `calculateMatchProbability`, `combination`);
* `src/src/services/drawService.js` — `DrawService` (`completeDraw`,
  `settleTicket`, `creditWinnings`, `calculateMatches`, `getDrawById`);
* `src/unnamed/part_000` — `TicketService` (`purchaseTicket`, `reserveFunds`,
  `getUserWallet`);
* `src/unnamed/part_001` — the draw read route handlers.

Modelling conventions:

* Node's `crypto` primitives (HMAC-SHA-256, SHA-256) are kept abstract: every
  definition that uses them is parametrised by a `Crypto` record supplying the
  two functions.  The claims under verification are structural and hold (or
  fail) for every choice of primitives, so nothing depends on internals of
  SHA-256.
* A SHA-256 HMAC digest is a `List Nat` of byte values; hex digests used only
  for equality comparison are kept as `String`.
* JavaScript numbers used as *money or state* are modelled as exact rationals
  (`ℚ`); the one claim that is genuinely about binary64 rounding (the
  hypergeometric probability) gets its own faithful binary64 model (`fl`,
  round-to-nearest-even at 53 significand bits) further below.
* The `do … while` loop of `getRandomIndex` can fail to terminate in the
  source (it cycles through at most `(hash.length-4)/4` distinct 4-byte
  windows and rejects forever if all of them exceed the rejection bound), so
  it is embedded with fuel `hash.length`, which covers a whole cycle of the
  offset sequence: a `none` result corresponds exactly to divergence of the
  JavaScript loop.
-/

/-- Abstract cryptographic primitives of `require('crypto')` as used by
`RNGService`: `hmacSha256 key message` is the HMAC digest as a byte list, and
`sha256 s` is the hex digest string of `s` (used only for comparisons). -/
structure Crypto where
  hmacSha256 : String → String → List Nat
  sha256 : String → String

/-- `hash.readUInt32BE(off)` from `getRandomIndex` (rng.js line 69): the
big-endian 32-bit value formed by bytes `off .. off+3` of the digest. -/
def readUInt32BE (hash : List Nat) (off : Nat) : Nat :=
  hash.getD off 0 * 16777216 + hash.getD (off + 1) 0 * 65536 +
    hash.getD (off + 2) 0 * 256 + hash.getD (off + 3) 0

/-- The rejection-sampling bound of rng.js line 71:
`Math.floor(0x100000000 / max) * max`. -/
def rejectionBound (max : Nat) : Nat :=
  (4294967296 / max) * max

/-- The `do … while` loop body of `RNGService.getRandomIndex` (rng.js lines
67–71): read a 4-byte window at `offset % (hash.length - 4)`, accept it when
it is below `rejectionBound max`, otherwise advance `offset` by 4 and retry.
The fuel argument makes the loop total; `none` models divergence. -/
def getRandomIndexAux (hash : List Nat) (max : Nat) : Nat → Nat → Option Nat
  | 0, _ => none
  | fuel + 1, off =>
    let v := readUInt32BE hash (off % (hash.length - 4))
    if v < rejectionBound max then some (v % max)
    else getRandomIndexAux hash max fuel (off + 4)

/-- `RNGService.getRandomIndex(hash, max)` (rng.js lines 63–74).  `offset`
starts at 0 on *every* call.  Fuel `hash.length` is enough to visit every
window the cyclic offset sequence can reach. -/
def getRandomIndex (hash : List Nat) (max : Nat) : Option Nat :=
  getRandomIndexAux hash max hash.length 0

/-- The destructuring swap `[numbers[i], numbers[j]] = [numbers[j], numbers[i]]`
of rng.js line 53. -/
def swapL {α : Type} (l : List α) (i j : Nat) : List α :=
  match l[i]?, l[j]? with
  | some x, some y => (l.set i y).set j x
  | _, _ => l

/-- The Fisher–Yates loop of `sampleWithoutReplacement` (rng.js lines 51–54):
iterations for indices `i, i-1, …, 1`; the iteration at index `i` draws
`j := getRandomIndex(hash, i+1)` and swaps positions `i` and `j`. -/
def fyLoop (hash : List Nat) : List Nat → Nat → Option (List Nat)
  | l, 0 => some l
  | l, i + 1 =>
    match getRandomIndex hash (i + 2) with
    | none => none
    | some j => fyLoop hash (swapL l (i + 1) j) i

/-- `RNGService.sampleWithoutReplacement` given the already-computed HMAC
digest (rng.js lines 42–58): shuffle `[1..poolSize]`, take the first
`sampleSize` entries, sort ascending. -/
def sampleCore (hash : List Nat) (poolSize sampleSize : Nat) : Option (List Nat) :=
  (fyLoop hash ((List.range poolSize).map (· + 1)) (poolSize - 1)).map
    (fun l => List.insertionSort (· ≤ ·) (l.take sampleSize))

/-- `RNGService.sampleWithoutReplacement(seed, nonce, poolSize, sampleSize)`
(rng.js lines 42–58): the digest is `HMAC-SHA256(key = seed, msg =
nonce.toString())`, computed once before the shuffle. -/
def sampleWithoutReplacement (C : Crypto) (seed : String) (nonce : Nat)
    (poolSize sampleSize : Nat) : Option (List Nat) :=
  sampleCore (C.hmacSha256 seed (toString nonce)) poolSize sampleSize

/-! ## Spec-modelled sampler (for the refinement claim C4)

The following definitions follow the *specification's words* (spec.md §4.2),
not the source; they exist only to be compared with the source-derived
sampler above. -/

/-- Modelled from the spec: block `b` of the HMAC-derived byte stream.  Block
0 is the digest the source also computes; "if the byte stream is exhausted,
wrap/re-derive additional HMAC blocks (counter-appended) rather than reusing
bytes" — later blocks append the block counter to the message. -/
def specBlock (C : Crypto) (seed msg : String) : Nat → List Nat
  | 0 => C.hmacSha256 seed msg
  | b + 1 => C.hmacSha256 seed (msg ++ toString (b + 1))

/-- Modelled from the spec: byte `n` of the unbounded stream (32 bytes per
HMAC block). -/
def specStreamByte (C : Crypto) (seed msg : String) (n : Nat) : Nat :=
  (specBlock C seed msg (n / 32)).getD (n % 32) 0

/-- Modelled from the spec: the `k`-th successive, non-reused 4-byte window of
the stream. -/
def specWindow (C : Crypto) (seed msg : String) (k : Nat) : Nat :=
  specStreamByte C seed msg (4 * k) * 16777216 +
    specStreamByte C seed msg (4 * k + 1) * 65536 +
    specStreamByte C seed msg (4 * k + 2) * 256 +
    specStreamByte C seed msg (4 * k + 3)

/-- Modelled from the spec: draw a swap index in `[0, max)` by rejection
sampling over successive windows starting at window `k`, rejecting values
`≥ floor(2^32 / max) * max`; returns the index and the next unconsumed
window position. -/
def specDrawIndex (C : Crypto) (seed msg : String) (max : Nat) :
    Nat → Nat → Option (Nat × Nat)
  | 0, _ => none
  | fuel + 1, k =>
    let v := specWindow C seed msg k
    if v < rejectionBound max then some (v % max, k + 1)
    else specDrawIndex C seed msg max fuel (k + 1)

/-- Modelled from the spec: the Fisher–Yates loop threading the stream
position, so that no window is ever reused. -/
def specFyLoop (C : Crypto) (seed msg : String) :
    List Nat → Nat → Nat → Option (List Nat)
  | l, 0, _ => some l
  | l, i + 1, k =>
    match specDrawIndex C seed msg (i + 2) 64 k with
    | none => none
    | some (j, k') => specFyLoop C seed msg (swapL l (i + 1) j) i k'

/-- Modelled from the spec (§4.2): the sampler as the specification describes
it — rejection sampling over successive non-reused windows, counter-appended
extra blocks on exhaustion, then take the first `sampleSize` entries sorted
ascending. -/
def specSampleWithoutReplacement (C : Crypto) (seed : String) (nonce : Nat)
    (poolSize sampleSize : Nat) : Option (List Nat) :=
  (specFyLoop C seed (toString nonce) ((List.range poolSize).map (· + 1)) (poolSize - 1) 0).map
    (fun l => List.insertionSort (· ≤ ·) (l.take sampleSize))

/-! ## Concrete cryptographic primitives used by witnesses and counterexamples

The structural theorems below hold for every `Crypto`; the closed witness and
counterexample statements instantiate it with simple concrete functions. -/

/-- A `Crypto` whose HMAC digest is 32 zero bytes and whose hash is the
identity. -/
def cryptoZeros : Crypto :=
  ⟨fun _ _ => List.replicate 32 0, fun s => s⟩

/-- A `Crypto` whose HMAC digest has first window 0 and second window 1:
it separates the source sampler (which restarts at offset 0 for every index)
from the spec-described sampler (which consumes successive windows). -/
def cryptoWindows01 : Crypto :=
  ⟨fun _ _ => [0, 0, 0, 0, 0, 0, 0, 1] ++ List.replicate 24 0, fun s => s⟩

/-- Fixed seed strings used in closed statements. -/
def seedA : String := "a"

/-- A second, distinct seed string. -/
def seedB : String := "b"

/-- The empty client seed. -/
def seedEmpty : String := ""

/-! ## RNG service state: commitment, rotation, verification (rng.js)

`RNGService` holds `this.serverSeed`, `this.poolSize`, `this.drawSize` (the
client-seed length plays no role in the claims).  `rotateServerSeed` draws a
fresh random seed from `crypto.randomBytes`; the entropy is passed in as an
explicit argument.  `generateDraw`'s `drawId`/`timestamp` fields and audit
logging have no bearing on the modelled claims and are omitted. -/

/-- The mutable instance state of `RNGService` (rng.js lines 9–14).  The class
has a single `serverSeed` field: no previous seed is stored anywhere. -/
structure RngState where
  serverSeed : String
  poolSize : Nat
  drawSize : Nat
deriving DecidableEq

/-- `RNGService.getServerSeedHash` (rng.js lines 26–28). -/
def getServerSeedHash (C : Crypto) (st : RngState) : String :=
  C.sha256 st.serverSeed

/-- `RNGService.rotateServerSeed` (rng.js lines 33–36): overwrite
`this.serverSeed` with a fresh random seed and return the new hash. -/
def rotateServerSeed (C : Crypto) (st : RngState) (freshSeed : String) :
    RngState × String :=
  let st' : RngState := { st with serverSeed := freshSeed }
  (st', getServerSeedHash C st')

/-- The draw-result record produced by `generateDraw` and consumed by
`verifyDraw` (rng.js lines 96–105 and 127). -/
structure DrawResult where
  serverSeedHash : String
  clientSeed : String
  nonce : Nat
  numbers : List Nat
  poolSize : Nat
  drawSize : Nat
deriving DecidableEq

/-- `RNGService.generateDraw` (rng.js lines 79–120) with the client seed and
nonce supplied (the code falls back to fresh entropy / `Date.now()` when they
are absent; those sources are external inputs here). -/
def generateDraw (C : Crypto) (st : RngState) (clientSeed : String)
    (nonce : Nat) : Option DrawResult :=
  (sampleWithoutReplacement C (st.serverSeed ++ clientSeed) nonce
      st.poolSize st.drawSize).map
    fun ns =>
      ⟨getServerSeedHash C st, clientSeed, nonce, ns, st.poolSize, st.drawSize⟩

/-- `RNGService.verifyDraw` (rng.js lines 125–156).  The body runs in a
`try`/`catch` whose `catch` returns `false`: the hash-mismatch `throw` and the
number-mismatch `throw` therefore yield `false`, and a match yields `true`.
`none` models divergence of the sampler's rejection loop (the only way the
body can fail to produce a boolean). -/
def verifyDraw (C : Crypto) (st : RngState) (dr : DrawResult) : Option Bool :=
  if getServerSeedHash C st ≠ dr.serverSeedHash then some false
  else
    match sampleWithoutReplacement C (st.serverSeed ++ dr.clientSeed) dr.nonce
        dr.poolSize dr.drawSize with
    | none => none
    | some ns => some (ns == dr.numbers)

/-! ## IEEE-754 binary64 model (for the paytable's floating-point arithmetic)

JavaScript numbers are IEEE-754 binary64.  `PaytableService.combination` and
`calculateMatchProbability` (paytable.js lines 219–246) perform their
arithmetic in that format, so they are embedded with an explicit rounding
function `fl`: round-to-nearest, ties-to-even, 53 significand bits, unbounded
exponent (the values involved are nowhere near overflow or subnormal range,
so the exponent bounds are irrelevant).  Every class of every operation the
source performs (`*`, `/`, `Math.round`) is wrapped in `fl`. -/

/-- An unreduced fraction `num / den` of integers (`den` kept positive by
every constructor below).  Binary64 values and their exact intermediate
products live here; only core `Int`/`Nat` arithmetic is used, so the kernel
can evaluate everything. -/
structure QF where
  num : ℤ
  den : ℤ
deriving DecidableEq

/-- The rational value of a fraction. -/
def QF.toRat (a : QF) : ℚ :=
  (a.num : ℚ) / (a.den : ℚ)

/-- Exact product of fractions. -/
def qfMul (a b : QF) : QF :=
  ⟨a.num * b.num, a.den * b.den⟩

/-- Exact quotient of fractions (the divisors that occur are positive). -/
def qfDiv (a b : QF) : QF :=
  ⟨a.num * b.den, a.den * b.num⟩

/-- `2 ^ k` as an integer, structurally. -/
def intPow2 : Nat → ℤ
  | 0 => 1
  | n + 1 => 2 * intPow2 n

/-- `a · 2 ^ k` for a signed exponent. -/
def qfShift (a : QF) (k : ℤ) : QF :=
  if 0 ≤ k then ⟨a.num * intPow2 k.toNat, a.den⟩
  else ⟨a.num, a.den * intPow2 (-k).toNat⟩

/-- Fuelled base-2 logarithm (structural, so the kernel can evaluate it). -/
def natLog2Aux : Nat → Nat → Nat
  | 0, _ => 0
  | fuel + 1, n => if n ≤ 1 then 0 else natLog2Aux fuel (n / 2) + 1

/-- `⌊log₂ n⌋` for positive `n`. -/
def natLog2 (n : Nat) : Nat :=
  natLog2Aux n n

/-- Whether `2 ^ k ≤ a` for a positive fraction `a`. -/
def qfPow2Le (k : ℤ) (a : QF) : Bool :=
  if 0 ≤ k then decide (intPow2 k.toNat * a.den ≤ a.num)
  else decide (a.den ≤ a.num * intPow2 (-k).toNat)

/-- `⌊log₂ a⌋` for a positive fraction: a candidate from numerator and
denominator bit lengths, corrected by at most one in either direction. -/
def qfLog2 (a : QF) : ℤ :=
  let c : ℤ := (natLog2 a.num.natAbs : ℤ) - (natLog2 a.den.natAbs : ℤ)
  if qfPow2Le (c + 1) a then c + 1
  else if qfPow2Le c a then c
  else c - 1

/-- Binary64 rounding of a positive fraction: round to the nearest multiple
of the unit in the last place `2 ^ (⌊log₂ a⌋ - 52)` (53 significand bits),
ties to even. -/
def qfRound53 (a : QF) : QF :=
  let e := qfLog2 a - 52
  let scaled := qfShift a (-e)
  let m := Int.fdiv scaled.num scaled.den
  let twiceRem := 2 * (scaled.num - m * scaled.den)
  let m' :=
    if twiceRem < scaled.den then m
    else if scaled.den < twiceRem then m + 1
    else if m % 2 = 0 then m else m + 1
  qfShift ⟨m', 1⟩ e

/-- Binary64 rounding (round to nearest, ties to even; exponent range
irrelevant at these magnitudes) of a fraction. -/
def fl (a : QF) : QF :=
  if a.num = 0 then ⟨0, 1⟩
  else if a.num < 0 then
    let p := qfRound53 ⟨-a.num, a.den⟩
    ⟨-p.num, p.den⟩
  else qfRound53 a

/-- JavaScript `Math.round` (half towards `+∞`, `⌊q + 1/2⌋`) applied to a
binary64 value, returning a binary64 value. -/
def jsMathRound (a : QF) : QF :=
  fl ⟨Int.fdiv (2 * a.num + a.den) (2 * a.den), 1⟩

/-- The loop of `PaytableService.combination` (paytable.js lines 240–243):
`result = result * (n - i) / (i + 1)`, evaluated left-to-right in binary64,
for `steps` iterations starting at index `i`. -/
def combinationLoop (n : Nat) : Nat → Nat → QF → QF
  | _, 0, r => r
  | i, steps + 1, r =>
    combinationLoop n (i + 1) steps
      (fl (qfDiv (fl (qfMul r ⟨((n - i : Nat) : ℤ), 1⟩)) ⟨((i + 1 : Nat) : ℤ), 1⟩))

/-- `PaytableService.combination(n, k)` (paytable.js lines 236–246) in
binary64: early returns for `k > n` (a negative `k` cannot arise at the call
sites modelled here), `k = 0` and `k = n`, otherwise the rounded loop value. -/
def jsCombination (n k : Nat) : QF :=
  if k > n then ⟨0, 1⟩
  else if k = 0 ∨ k = n then ⟨1, 1⟩
  else jsMathRound (combinationLoop n 0 k ⟨1, 1⟩)

/-- `PaytableService.calculateMatchProbability(spotSize, matches, poolSize,
drawSize)` (paytable.js lines 219–231) in binary64:
`C(k,m) * C(N-k, n-m) / C(N,n)` with one rounding per arithmetic operation. -/
def calculateMatchProbabilityF (spotSize matchCount poolSize drawSize : Nat) : QF :=
  if matchCount > spotSize ∨ matchCount > drawSize then ⟨0, 1⟩
  else
    fl (qfDiv
      (fl (qfMul (jsCombination spotSize matchCount)
        (jsCombination (poolSize - spotSize) (drawSize - matchCount))))
      (jsCombination poolSize drawSize))

/-- Concrete `RNGService` state used in the C7/C8 closed statements:
secret `seedA`, pool of 3, draws of size 1. -/
def rngStateA : RngState := ⟨seedA, 3, 1⟩

/-- The state `rngStateA` after a rotation that drew `seedB`. -/
def rngStateB : RngState := ⟨seedB, 3, 1⟩

/-- The draw result `generateDraw` produces from `rngStateA` under
`cryptoZeros` with the empty client seed and nonce 0. -/
def drawResultA : DrawResult := ⟨seedA, seedEmpty, 0, [2], 3, 1⟩

/-! ## Settlement engine: database state and operations

Shallow embedding of `DrawService` (drawService.js), `TicketService`
(`src/unnamed/part_000`) and the draw read handler (`src/unnamed/part_001`).
The Postgres tables become lists of records; each SQL statement becomes a
pure state transformation, applied in the exact order the `await`ed queries
run (the services are singletons processing one request at a time, so the
sequential model is the code's own execution order).

Conventions:

* Monetary amounts are integer cents (`ℤ`).  The source keeps dollars in
  binary64 and rounds payouts with `Math.round(payout * 100) / 100`; every
  paytable multiplier is a whole number of dollars and the base paytable
  wager is $1.00, so on cent-granular wagers the source's scaling
  `(basePayout / paytable.wager) * wager` and rounding are exact and equal
  `multiplier * wagerCents`.
* `uuidv4()` / fresh row ids are modelled by the `nextId` counter.
* A thrown JavaScript error is an `Except.error`; `completeDraw`'s
  per-ticket `try`/`catch` maps an error back to the pre-iteration state
  (inside `settleTicket` the only in-model throw, the unknown-spot-size
  lookup in `calculatePayout`, happens before the first write).
* `settleTicketUpTo`/`purchaseTicketUpTo` additionally expose every
  intermediate state after `k` of the operation's sequential DB statements,
  modelling an interruption (crash or thrown infrastructure error) between
  statements; neither source function wraps its statements in a
  transaction, except `reserveFunds`, which is one `database.transaction`
  and hence a single atomic statement here.
-/

/-- Status column of `draws`: `'pending'` or `'completed'`. -/
inductive DrawStatus where
  | pending
  | completed
deriving DecidableEq

/-- Status column of `tickets`. -/
inductive TicketStatus where
  | active
  | settled
  | cancelled
deriving DecidableEq

/-- `transaction_type` column of `wallet_transactions`. -/
inductive TxnType where
  | wager
  | payout
  | refund
deriving DecidableEq

/-- A row of `draws` (columns not read by the modelled operations —
`draw_number`, timestamps, seed metadata — are omitted). -/
structure Draw where
  id : Nat
  numbers : List Nat
  status : DrawStatus
deriving DecidableEq

/-- A row of `tickets` (`ticket_number` and timestamps omitted;
`total_cost = wager` in the source). -/
structure Ticket where
  id : Nat
  userId : Nat
  drawId : Nat
  spots : List Nat
  spotSize : Nat
  wager : ℤ
  status : TicketStatus
deriving DecidableEq

/-- A row of `ticket_settlements` (`settlement_reference` omitted). -/
structure Settlement where
  id : Nat
  ticketId : Nat
  drawId : Nat
  matchCount : Nat
  payout : ℤ
deriving DecidableEq

/-- A row of `user_wallets`. -/
structure Wallet where
  id : Nat
  userId : Nat
  balance : ℤ
deriving DecidableEq

/-- A row of `wallet_transactions`. -/
structure Txn where
  walletId : Nat
  ttype : TxnType
  amount : ℤ
  balanceBefore : ℤ
  balanceAfter : ℤ
  referenceId : Nat
deriving DecidableEq

/-- The database state. -/
structure Db where
  draws : List Draw
  tickets : List Ticket
  settlements : List Settlement
  wallets : List Wallet
  txns : List Txn
  nextId : Nat
deriving DecidableEq

/-- The thrown errors of the modelled operations. -/
inductive DbErr where
  | drawNotFound
  | drawNotPending
  | invalidSpotSize
deriving DecidableEq

/-- The paytable of `PaytableService` (paytable.js lines 10–154): for a valid
spot size, the map from match count to the whole-dollar base multiplier
(`paytable.payouts[matches] || 0`); `none` is `getPaytable`'s thrown
`Invalid spot size`. -/
def paytableBase (spotSize : Nat) : Option (Nat → ℤ) :=
  match spotSize with
  | 1 => some fun m => if m = 1 then 3 else 0
  | 2 => some fun m => if m = 2 then 12 else 0
  | 3 => some fun m => if m = 2 then 1 else if m = 3 then 42 else 0
  | 4 => some fun m =>
      if m = 2 then 1 else if m = 3 then 3 else if m = 4 then 100 else 0
  | 5 => some fun m =>
      if m = 2 then 1 else if m = 3 then 2 else if m = 4 then 10
      else if m = 5 then 500 else 0
  | 6 => some fun m =>
      if m = 3 then 1 else if m = 4 then 5 else if m = 5 then 50
      else if m = 6 then 1000 else 0
  | 7 => some fun m =>
      if m = 4 then 1 else if m = 5 then 10 else if m = 6 then 100
      else if m = 7 then 2000 else 0
  | 8 => some fun m =>
      if m = 5 then 5 else if m = 6 then 50 else if m = 7 then 500
      else if m = 8 then 5000 else 0
  | 9 => some fun m =>
      if m = 5 then 2 else if m = 6 then 20 else if m = 7 then 200
      else if m = 8 then 2000 else if m = 9 then 10000 else 0
  | 10 => some fun m =>
      if m = 5 then 1 else if m = 6 then 10 else if m = 7 then 100
      else if m = 8 then 1000 else if m = 9 then 5000
      else if m = 10 then 100000 else 0
  | _ => none

/-- `DrawService.calculateMatches` (drawService.js lines 252–264): the number
of distinct ticket spots contained in the drawn numbers. -/
def calculateMatches (ticketSpots drawNumbers : List Nat) : Nat :=
  (ticketSpots.dedup.filter (fun x => decide (x ∈ drawNumbers))).length

/-- The payout `settleTicket` computes for a ticket against a draw
(`calculatePayout`, paytable.js lines 170–184), in cents, when the spot size
is valid; 0 for an invalid spot size (where the source throws instead). -/
def payoutOf (t : Ticket) (d : Draw) : ℤ :=
  match paytableBase t.spotSize with
  | none => 0
  | some tbl => tbl (calculateMatches t.spots d.numbers) * t.wager

/-- `DrawService.getDrawById` (drawService.js lines 313–319), also the
`SELECT * FROM draws WHERE id` of `completeDraw`: the first row with the
given id, or `null`. -/
def getDrawById (s : Db) (dId : Nat) : Option Draw :=
  s.draws.find? fun d => d.id == dId

/-- The `UPDATE draws SET status = 'completed' WHERE id` of `completeDraw`
(drawService.js lines 146–148). -/
def markDrawCompleted (s : Db) (dId : Nat) : Db :=
  { s with draws := s.draws.map fun d =>
      if d.id == dId then { d with status := DrawStatus.completed } else d }

/-- The `SELECT * FROM tickets WHERE draw_id = $1 AND status = 'active'` of
`completeDraw` (drawService.js lines 151–153). -/
def activeTicketsFor (s : Db) (dId : Nat) : List Ticket :=
  s.tickets.filter fun t => t.drawId == dId && t.status == TicketStatus.active

/-- The `INSERT INTO ticket_settlements` of `settleTicket` (drawService.js
lines 202–212). -/
def addSettlement (s : Db) (t : Ticket) (d : Draw) (m : Nat) (payout : ℤ) : Db :=
  { s with settlements := s.settlements ++ [⟨s.nextId, t.id, d.id, m, payout⟩],
           nextId := s.nextId + 1 }

/-- The `UPDATE tickets SET status = 'settled' WHERE id` of `settleTicket`
(drawService.js lines 215–217). -/
def markTicketSettled (s : Db) (tid : Nat) : Db :=
  { s with tickets := s.tickets.map fun t =>
      if t.id == tid then { t with status := TicketStatus.settled } else t }

/-- `TicketService.getUserWallet` (part_000 lines 121–137): the user's wallet
row, created with balance 0 when missing (the creation is itself a write). -/
def getUserWallet (s : Db) (userId : Nat) : Db × Wallet :=
  match s.wallets.find? (fun w => w.userId == userId) with
  | some w => (s, w)
  | none =>
    let w : Wallet := ⟨s.nextId, userId, 0⟩
    ({ s with wallets := s.wallets ++ [w], nextId := s.nextId + 1 }, w)

/-- The `UPDATE user_wallets SET balance = $1 WHERE id = $2` statement. -/
def setWalletBalance (s : Db) (wid : Nat) (newBal : ℤ) : Db :=
  { s with wallets := s.wallets.map fun w =>
      if w.id == wid then { w with balance := newBal } else w }

/-- The `INSERT INTO wallet_transactions` statement. -/
def addTxn (s : Db) (wid : Nat) (ty : TxnType) (amount balBefore balAfter : ℤ)
    (ref : Nat) : Db :=
  { s with txns := s.txns ++ [⟨wid, ty, amount, balBefore, balAfter, ref⟩] }

/-- The database-statement sequence of `DrawService.settleTicket` +
`creditWinnings` (drawService.js lines 192–247 and 277–297) truncated after
its first `k` statements: 1 insert settlement, 2 mark ticket settled, and
when payout > 0: 3 fetch/create wallet, 4 update balance, 5 insert payout
transaction.  `k = 5` (or more) is the complete, uninterrupted run.  None of
these statements are wrapped in a transaction in the source, so every prefix
is a state an interruption can leave behind. -/
def settleTicketWrites (s : Db) (t : Ticket) (d : Draw) (m : Nat)
    (payout : ℤ) (k : Nat) : Db :=
  if k = 0 then s
  else if k = 1 then addSettlement s t d m payout
  else if k = 2 then markTicketSettled (addSettlement s t d m payout) t.id
  else if payout ≤ 0 then markTicketSettled (addSettlement s t d m payout) t.id
  else if k = 3 then
    (getUserWallet (markTicketSettled (addSettlement s t d m payout) t.id)
      t.userId).1
  else if k = 4 then
    setWalletBalance
      (getUserWallet (markTicketSettled (addSettlement s t d m payout) t.id)
        t.userId).1
      (getUserWallet (markTicketSettled (addSettlement s t d m payout) t.id)
        t.userId).2.id
      ((getUserWallet (markTicketSettled (addSettlement s t d m payout) t.id)
        t.userId).2.balance + payout)
  else
    addTxn
      (setWalletBalance
        (getUserWallet (markTicketSettled (addSettlement s t d m payout) t.id)
          t.userId).1
        (getUserWallet (markTicketSettled (addSettlement s t d m payout) t.id)
          t.userId).2.id
        ((getUserWallet (markTicketSettled (addSettlement s t d m payout) t.id)
          t.userId).2.balance + payout))
      (getUserWallet (markTicketSettled (addSettlement s t d m payout) t.id)
        t.userId).2.id
      TxnType.payout payout
      (getUserWallet (markTicketSettled (addSettlement s t d m payout) t.id)
        t.userId).2.balance
      ((getUserWallet (markTicketSettled (addSettlement s t d m payout) t.id)
        t.userId).2.balance + payout)
      t.id

/-- `DrawService.settleTicket` + `creditWinnings` for a valid spot size:
`settleTicketWrites` with the matches and payout the source computes. -/
def settleTicketUpTo (s : Db) (t : Ticket) (d : Draw) (k : Nat) : Db :=
  match paytableBase t.spotSize with
  | none => s
  | some tbl =>
    settleTicketWrites s t d (calculateMatches t.spots d.numbers)
      (tbl (calculateMatches t.spots d.numbers) * t.wager) k

/-- `DrawService.settleTicket` (drawService.js lines 192–247): the spot-size
lookup throws before any write; otherwise all five statements run. -/
def settleTicket (s : Db) (t : Ticket) (d : Draw) : Except DbErr Db :=
  match paytableBase t.spotSize with
  | none => Except.error DbErr.invalidSpotSize
  | some _ => Except.ok (settleTicketUpTo s t d 5)

/-- The per-ticket loop of `completeDraw` (drawService.js lines 159–169):
each settlement failure is caught and logged, leaving that iteration's state
unchanged, and the loop continues. -/
def settleAll (d : Draw) (ts : List Ticket) (s : Db) : Db :=
  ts.foldl
    (fun s' t =>
      match settleTicket s' t d with
      | Except.ok s'' => s''
      | Except.error _ => s')
    s

/-- `DrawService.completeDraw` (drawService.js lines 128–187): fetch the
draw, reject unless its status is `'pending'`, mark it `'completed'`, then
settle every ticket that was active for it, returning the settled count. -/
def completeDraw (s : Db) (dId : Nat) : Except DbErr (Db × Nat) :=
  match getDrawById s dId with
  | none => Except.error DbErr.drawNotFound
  | some d =>
    if d.status ≠ DrawStatus.pending then Except.error DbErr.drawNotPending
    else
      let s1 := markDrawCompleted s dId
      let ts := activeTicketsFor s1 dId
      Except.ok (settleAll d ts s1, ts.length)

/-- `TicketService.validateTicketData` (part_000 lines 79–107) with the
default policy bounds (1–10 spots, $0.25–$20.00, i.e. 25–2000 cents). -/
def validateTicketData (spots : List Nat) (wager : ℤ) (spotSize : Nat) : Bool :=
  decide (1 ≤ spots.length ∧ spots.length ≤ 10 ∧ spotSize = spots.length ∧
    (∀ x ∈ spots, 1 ≤ x ∧ x ≤ 80) ∧ spots.Nodup ∧ 25 ≤ wager ∧ wager ≤ 2000)

/-- `TicketService.purchaseTicket` (part_000 lines 17–74) truncated after its
first `k` database statements: 1 fetch/create wallet, 2 insert the ticket
row, 3 the `reserveFunds` transaction (balance re-check, balance update and
wager transaction insert — atomic in the source, hence one statement here).
Validation failure throws before any write; an insufficient balance throws
after the wallet fetch/creation but before the ticket insert; a
`reserveFunds` failure leaves the already-inserted `'active'` ticket row
behind.  `k = 3` is the complete, uninterrupted run. -/
def purchaseTicketUpTo (s : Db) (userId : Nat) (spots : List Nat) (wager : ℤ)
    (spotSize : Nat) (drawId : Nat) (k : Nat) : Db :=
  if validateTicketData spots wager spotSize = false then s
  else if k = 0 then s
  else
    let p := getUserWallet s userId
    if k = 1 then p.1
    else if p.2.balance < wager then p.1
    else
      let t : Ticket := ⟨p.1.nextId, userId, drawId, spots, spotSize, wager,
        TicketStatus.active⟩
      let s2 := { p.1 with tickets := p.1.tickets ++ [t],
                           nextId := p.1.nextId + 1 }
      if k = 2 then s2
      else if p.2.balance - wager < 0 then s2
      else
        let s3 := setWalletBalance s2 p.2.id (p.2.balance - wager)
        addTxn s3 p.2.id TxnType.wager (-wager) p.2.balance
          (p.2.balance - wager) t.id

/-- `TicketService.purchaseTicket`, complete run. -/
def purchaseTicket (s : Db) (userId : Nat) (spots : List Nat) (wager : ℤ)
    (spotSize : Nat) (drawId : Nat) : Db :=
  purchaseTicketUpTo s userId spots wager spotSize drawId 3

/-! ### Read helpers for stating the claims -/

/-- The status of the first ticket row with the given id. -/
def ticketStatusOf (s : Db) (tid : Nat) : Option TicketStatus :=
  (s.tickets.find? fun t => t.id == tid).map (·.status)

/-- The status of the first draw row with the given id. -/
def drawStatusOf (s : Db) (dId : Nat) : Option DrawStatus :=
  (getDrawById s dId).map (·.status)

/-- How many settlement rows reference the ticket. -/
def settlementCount (s : Db) (tid : Nat) : Nat :=
  (s.settlements.filter fun r => r.ticketId == tid).length

/-- How many payout transactions reference the ticket: the ledger trace of
`creditWinnings`. -/
def payoutTxnCount (s : Db) (tid : Nat) : Nat :=
  (s.txns.filter fun x => x.ttype == TxnType.payout && x.referenceId == tid).length

/-- The balance of the first wallet row with the given id. -/
def walletBalanceOf (s : Db) (wid : Nat) : Option ℤ :=
  (s.wallets.find? fun w => w.id == wid).map (·.balance)

/-! ### The draw read endpoint (part_001) and draw creation -/

/-- The response body of `GET /api/v1/draws/:drawId` (part_001 lines
97–110): every listed field of the found row, `numbers` included,
unconditionally. -/
structure DrawView where
  drawId : Nat
  numbers : List Nat
  status : DrawStatus
deriving DecidableEq

/-- The `GET /api/v1/draws/:drawId` handler (part_001 lines 85–119): look the
draw up and return its fields — including `numbers` — whatever its status. -/
def drawDetailsHandler (s : Db) (dId : Nat) : Option DrawView :=
  (getDrawById s dId).map fun d => ⟨d.id, d.numbers, d.status⟩

/-- `DrawService.createDraw` (drawService.js lines 82–123): insert the freshly
generated numbers with status `'pending'` and return the inserted row
(`RETURNING *`).  The RNG outcome is the `numbers` argument. -/
def createDraw (s : Db) (numbers : List Nat) : Db × Draw :=
  let d : Draw := ⟨s.nextId, numbers, DrawStatus.pending⟩
  ({ s with draws := s.draws ++ [d], nextId := s.nextId + 1 }, d)

/-! ### Concrete states for the closed statements of C1, C2, C3 and C10 -/

/-- C1 scenario: one pending draw with numbers `[1,2,3]`, one active 2-spot
ticket on it (spots `[1,2]`, wager 100 cents), the user's wallet holding
1000 cents. -/
def dbC1 : Db :=
  ⟨[⟨1, [1, 2, 3], DrawStatus.pending⟩],
   [⟨10, 2, 1, [1, 2], 2, 100, TicketStatus.active⟩],
   [], [⟨5, 2, 1000⟩], [], 20⟩

/-- The draw row of `dbC1`. -/
def drawC1 : Draw := ⟨1, [1, 2, 3], DrawStatus.pending⟩

/-- The ticket row of `dbC1`. -/
def ticketC1 : Ticket := ⟨10, 2, 1, [1, 2], 2, 100, TicketStatus.active⟩

/-- The wallet row of `dbC1`. -/
def walletC1 : Wallet := ⟨5, 2, 1000⟩

/-- `dbC1` after one complete `completeDraw` pass: draw completed, the
ticket settled with 2 matches and a 12 × 100 cent payout, the wallet
credited once. -/
def dbC1After : Db :=
  ⟨[⟨1, [1, 2, 3], DrawStatus.completed⟩],
   [⟨10, 2, 1, [1, 2], 2, 100, TicketStatus.settled⟩],
   [⟨20, 10, 1, 2, 1200⟩], [⟨5, 2, 2200⟩],
   [⟨5, TxnType.payout, 1200, 1000, 2200, 10⟩], 21⟩

/-- C2 scenario: one pending draw and one active ticket whose recorded
`spot_size` is 0, so `calculatePayout` throws during its settlement. -/
def dbC2 : Db :=
  ⟨[⟨1, [1, 2, 3], DrawStatus.pending⟩],
   [⟨10, 2, 1, [1], 0, 100, TicketStatus.active⟩],
   [], [⟨5, 2, 1000⟩], [], 20⟩

/-- `dbC2` after `completeDraw`: the draw is completed even though its only
wager's settlement failed and the wager is still active. -/
def dbC2After : Db :=
  ⟨[⟨1, [1, 2, 3], DrawStatus.completed⟩],
   [⟨10, 2, 1, [1], 0, 100, TicketStatus.active⟩],
   [], [⟨5, 2, 1000⟩], [], 20⟩

/-- C3 scenario: a single *pending* draw whose `numbers` column already holds
the outcome `[4, 7]` (as `createDraw` writes it). -/
def dbC3 : Db := ⟨[⟨1, [4, 7], DrawStatus.pending⟩], [], [], [], [], 2⟩

/-- A state with one completed draw, used to witness the amended C3. -/
def dbC3W : Db := ⟨[⟨1, [9], DrawStatus.completed⟩], [], [], [], [], 2⟩

/-- Decidable equality of `Except` results, so closed statements about
`completeDraw` outcomes can be decided. -/
instance {ε α : Type} [DecidableEq ε] [DecidableEq α] :
    DecidableEq (Except ε α) := fun a b =>
  match a, b with
  | Except.ok x, Except.ok y =>
    if h : x = y then isTrue (by rw [h])
    else isFalse (fun hc => by cases hc; exact h rfl)
  | Except.error x, Except.error y =>
    if h : x = y then isTrue (by rw [h])
    else isFalse (fun hc => by cases hc; exact h rfl)
  | Except.ok _, Except.error _ => isFalse (fun hc => by cases hc)
  | Except.error _, Except.ok _ => isFalse (fun hc => by cases hc)

/-! ## Permutation facts about the Fisher–Yates loop -/

/-- Replacing position `m` by `a` and putting the displaced element `y` in
front is a permutation of putting `a` in front. -/
theorem cons_set_perm {α : Type} :
    ∀ (t : List α) (m : Nat) (y a : α), t[m]? = some y →
      List.Perm (y :: t.set m a) (a :: t)
  | [], m, _, _, h => by simp at h
  | b :: t', 0, y, a, h => by
    simp only [List.getElem?_cons_zero, Option.some_inj] at h
    subst h
    show List.Perm (b :: a :: t') (a :: b :: t')
    exact List.Perm.swap a b t'
  | b :: t', m + 1, y, a, h => by
    simp only [List.getElem?_cons_succ] at h
    show List.Perm (y :: b :: t'.set m a) (a :: b :: t')
    exact ((List.Perm.swap b y _).trans
      ((cons_set_perm t' m y a h).cons b)).trans (List.Perm.swap a b t')

/-- The double `set` performed by a swap is a permutation. -/
theorem set_set_perm {α : Type} :
    ∀ (l : List α) (i j : Nat) (x y : α), l[i]? = some x → l[j]? = some y →
      List.Perm ((l.set i y).set j x) l
  | [], i, _, _, _, hx, _ => by simp at hx
  | a :: t, 0, 0, x, y, hx, hy => by
    simp only [List.getElem?_cons_zero, Option.some_inj] at hx hy
    subst hx; subst hy
    simp
  | a :: t, 0, j + 1, x, y, hx, hy => by
    simp only [List.getElem?_cons_zero, Option.some_inj,
      List.getElem?_cons_succ] at hx hy
    subst hx
    simpa using cons_set_perm t j y a hy
  | a :: t, i + 1, 0, x, y, hx, hy => by
    simp only [List.getElem?_cons_zero, Option.some_inj,
      List.getElem?_cons_succ] at hx hy
    subst hy
    simpa using cons_set_perm t i x a hx
  | a :: t, i + 1, j + 1, x, y, hx, hy => by
    simp only [List.getElem?_cons_succ] at hx hy
    simpa using (set_set_perm t i j x y hx hy).cons a

/-- A swap step of the shuffle permutes the list (out-of-range indices leave
it unchanged). -/
theorem swapL_perm {α : Type} (l : List α) (i j : Nat) :
    List.Perm (swapL l i j) l := by
  unfold swapL
  cases hx : l[i]? with
  | none => exact List.Perm.refl l
  | some x =>
    cases hy : l[j]? with
    | none => exact List.Perm.refl l
    | some y => exact set_set_perm l i j x y hx hy

/-- Whatever indices the entropy source produces, the Fisher–Yates loop only
permutes its input. -/
theorem fyLoop_perm (hash : List Nat) :
    ∀ (i : Nat) (l l' : List Nat), fyLoop hash l i = some l' → List.Perm l' l
  | 0, l, l', h => by
    simp only [fyLoop, Option.some_inj] at h
    exact h ▸ List.Perm.refl l
  | i + 1, l, l', h => by
    simp only [fyLoop] at h
    cases hj : getRandomIndex hash (i + 2) with
    | none => rw [hj] at h; exact absurd h (by simp)
    | some j =>
      rw [hj] at h
      exact (fyLoop_perm hash i _ l' h).trans (swapL_perm l (i + 1) j)

/-- Whenever `sampleCore` terminates it returns exactly `sampleSize` strictly
ascending (hence pairwise-distinct) numbers drawn from `[1, poolSize]`. -/
theorem sampleCore_shape (hash : List Nat) (poolSize sampleSize : Nat)
    (hsz : sampleSize ≤ poolSize) (r : List Nat)
    (h : sampleCore hash poolSize sampleSize = some r) :
    r.length = sampleSize ∧ r.Nodup ∧ List.Sorted (· < ·) r ∧
      ∀ x ∈ r, 1 ≤ x ∧ x ≤ poolSize := by
  have hpool : ((List.range poolSize).map (· + 1)).Nodup :=
    (List.nodup_range poolSize).map (fun a b hab => by omega)
  simp only [sampleCore, Option.map_eq_some'] at h
  obtain ⟨l, hl, hr⟩ := h
  have hperm := fyLoop_perm hash (poolSize - 1) _ l hl
  have hlen : l.length = poolSize := by
    simpa using hperm.length_eq
  have hnodupl : l.Nodup := (hperm.symm.nodup hpool)
  have htake : (l.take sampleSize).Sublist l := List.take_sublist sampleSize l
  have hnodupt : (l.take sampleSize).Nodup := hnodupl.sublist htake
  have hlent : (l.take sampleSize).length = sampleSize := by
    simp [List.length_take, hlen, Nat.min_eq_left hsz]
  have hpermr : List.Perm r (l.take sampleSize) := by
    rw [← hr]; exact List.perm_insertionSort (· ≤ ·) (l.take sampleSize)
  have hnodupr : r.Nodup := hpermr.symm.nodup hnodupt
  have hsorted : List.Sorted (· ≤ ·) r := by
    rw [← hr]; exact List.sorted_insertionSort (· ≤ ·) (l.take sampleSize)
  refine ⟨by rw [hpermr.length_eq, hlent], hnodupr, hsorted.lt_of_le hnodupr, ?_⟩
  intro x hx
  have hxl : x ∈ l := htake.mem (hpermr.mem_iff.mp hx)
  have : x ∈ (List.range poolSize).map (· + 1) := hperm.mem_iff.mp hxl
  simp only [List.mem_map, List.mem_range] at this
  obtain ⟨y, hy, rfl⟩ := this
  omega

/-! ## Claims C4, C5, C6 -/

/-- C5: for all inputs (seed, nonce, poolSize, drawSize), any two calls to the
sampler with identical inputs produce identical output sequences — the
function is deterministic, a pure function of its arguments with no hidden
state (its embedding takes nothing but the arguments and the cryptographic
primitives). -/
theorem claim_C5_sample_deterministic (C : Crypto) (seed₁ seed₂ : String)
    (nonce₁ nonce₂ poolSize₁ poolSize₂ sampleSize₁ sampleSize₂ : Nat)
    (h₁ : seed₁ = seed₂) (h₂ : nonce₁ = nonce₂) (h₃ : poolSize₁ = poolSize₂)
    (h₄ : sampleSize₁ = sampleSize₂) :
    sampleWithoutReplacement C seed₁ nonce₁ poolSize₁ sampleSize₁ =
      sampleWithoutReplacement C seed₂ nonce₂ poolSize₂ sampleSize₂ := by
  subst h₁ h₂ h₃ h₄
  rfl

/-- Witness for C5 at a concrete input. -/
theorem claim_C5_sample_deterministic_witness :
    seedA = seedA ∧ (0 : Nat) = 0 ∧ (3 : Nat) = 3 ∧ (2 : Nat) = 2 ∧
      sampleWithoutReplacement cryptoZeros seedA 0 3 2 =
        sampleWithoutReplacement cryptoZeros seedA 0 3 2 :=
  ⟨rfl, rfl, rfl, rfl,
    claim_C5_sample_deterministic cryptoZeros seedA seedA 0 0 3 3 2 2 rfl rfl rfl rfl⟩

/-- C6: for every valid input with `drawSize ≤ poolSize`, whenever the sampler
terminates it returns exactly `drawSize` pairwise-distinct integers, each in
`[1, poolSize]`, sorted in (strictly) ascending order. -/
theorem claim_C6_sample_shape (C : Crypto) (seed : String)
    (nonce poolSize sampleSize : Nat) (hsz : sampleSize ≤ poolSize)
    (r : List Nat)
    (h : sampleWithoutReplacement C seed nonce poolSize sampleSize = some r) :
    r.length = sampleSize ∧ r.Nodup ∧ List.Sorted (· < ·) r ∧
      ∀ x ∈ r, 1 ≤ x ∧ x ≤ poolSize :=
  sampleCore_shape _ _ _ hsz r h

/-- Witness for C6 at a concrete input. -/
theorem claim_C6_sample_shape_witness :
    (2 : Nat) ≤ 3 ∧
      sampleWithoutReplacement cryptoZeros seedA 0 3 2 = some [2, 3] ∧
      (([2, 3] : List Nat).length = 2 ∧ ([2, 3] : List Nat).Nodup ∧
        List.Sorted (· < ·) [2, 3] ∧ ∀ x ∈ ([2, 3] : List Nat), 1 ≤ x ∧ x ≤ 3) :=
  ⟨by decide, by decide,
    claim_C6_sample_shape cryptoZeros seedA 0 3 2 (by decide) [2, 3] (by decide)⟩

/-- C4 counterexample: the source's swap-index stream is *not* the
spec-described sequence of successive non-reused windows.  With a digest whose
first two windows are 0 and 1, the source sampler (which restarts reading at
offset 0 on every Fisher–Yates index) returns `[2]` for
`poolSize = 3, drawSize = 1`, while the spec-described sampler (which consumes
the next unconsumed window) returns `[3]`. -/
theorem claim_C4_counterexample :
    sampleWithoutReplacement cryptoWindows01 seedA 0 3 1 = some [2] ∧
      specSampleWithoutReplacement cryptoWindows01 seedA 0 3 1 = some [3] ∧
      sampleWithoutReplacement cryptoWindows01 seedA 0 3 1 ≠
        specSampleWithoutReplacement cryptoWindows01 seedA 0 3 1 := by
  decide

/-- C4 (amended): the swap index is drawn by rejection sampling over 4-byte
windows of the single 32-byte HMAC digest with the rejection bound
`floor(2^32/max) * max` as the spec says, but the window offset restarts at 0
on *every* call (i.e. for each Fisher–Yates index), advances by 4 only across
rejections within one call, wraps modulo `hash.length - 4`, and no additional
HMAC blocks are ever derived: an accepted first window is reused by every
index of the shuffle. -/
theorem claim_C4_amended (hash : List Nat) (max : Nat) (hlen : 0 < hash.length) :
    (readUInt32BE hash 0 < rejectionBound max →
      getRandomIndex hash max = some (readUInt32BE hash 0 % max)) ∧
    (rejectionBound max ≤ readUInt32BE hash 0 →
      getRandomIndex hash max = getRandomIndexAux hash max (hash.length - 1) 4) := by
  obtain ⟨n, hn⟩ : ∃ n, hash.length = n + 1 := ⟨hash.length - 1, by omega⟩
  constructor
  · intro h
    unfold getRandomIndex
    rw [hn]
    simp only [getRandomIndexAux, Nat.zero_mod]
    rw [if_pos h]
  · intro h
    unfold getRandomIndex
    rw [hn]
    simp only [getRandomIndexAux, Nat.zero_mod]
    rw [if_neg (by omega)]
    norm_num

/-- Witness for the amended C4 at a concrete input. -/
theorem claim_C4_amended_witness :
    0 < (List.replicate 32 (0 : Nat)).length ∧
      ((readUInt32BE (List.replicate 32 0) 0 < rejectionBound 3 →
        getRandomIndex (List.replicate 32 0) 3 =
          some (readUInt32BE (List.replicate 32 0) 0 % 3)) ∧
      (rejectionBound 3 ≤ readUInt32BE (List.replicate 32 0) 0 →
        getRandomIndex (List.replicate 32 0) 3 =
          getRandomIndexAux (List.replicate 32 0) 3
            ((List.replicate 32 (0 : Nat)).length - 1) 4)) :=
  ⟨by decide, claim_C4_amended (List.replicate 32 0) 3 (by decide)⟩

/-! ## Claims C7 and C8 -/

/-- C7: whenever `verifyDraw` terminates it returns a boolean (the
`try`/`catch` turns every thrown error into `false`), and that boolean is
`true` if and only if both checks pass: the recomputed hash of the server
secret equals the supplied commitment digest, and the numbers recomputed by
the sampler equal the claimed numbers. -/
theorem claim_C7_verifyDraw_iff (C : Crypto) (st : RngState) (dr : DrawResult)
    (b : Bool) (h : verifyDraw C st dr = some b) :
    b = true ↔
      (getServerSeedHash C st = dr.serverSeedHash ∧
        sampleWithoutReplacement C (st.serverSeed ++ dr.clientSeed) dr.nonce
          dr.poolSize dr.drawSize = some dr.numbers) := by
  unfold verifyDraw at h
  by_cases hh : getServerSeedHash C st = dr.serverSeedHash
  · rw [if_neg (by simpa using hh)] at h
    cases hs : sampleWithoutReplacement C (st.serverSeed ++ dr.clientSeed)
        dr.nonce dr.poolSize dr.drawSize with
    | none => rw [hs] at h; exact absurd h (by simp)
    | some ns =>
      rw [hs] at h
      simp only [Option.some_inj] at h
      subst h
      constructor
      · intro hb
        have hns : ns = dr.numbers := by simpa using hb
        exact ⟨hh, congrArg some hns⟩
      · intro hcon
        have hnum := hcon.2
        simp only [Option.some_inj] at hnum
        simp [hnum]
  · rw [if_pos hh] at h
    simp only [Option.some_inj] at h
    subst h
    simp [hh]

/-- Witness for C7 at a concrete input. -/
theorem claim_C7_verifyDraw_iff_witness :
    verifyDraw cryptoZeros rngStateA drawResultA = some true ∧
      (true = true ↔
        (getServerSeedHash cryptoZeros rngStateA = drawResultA.serverSeedHash ∧
          sampleWithoutReplacement cryptoZeros
            (rngStateA.serverSeed ++ drawResultA.clientSeed) drawResultA.nonce
            drawResultA.poolSize drawResultA.drawSize = some drawResultA.numbers)) :=
  ⟨by decide, claim_C7_verifyDraw_iff cryptoZeros rngStateA drawResultA true (by decide)⟩

/-- C8 counterexample: the previous secret is *not* retained by
`rotateServerSeed`, and a draw generated before rotation fails verification
afterwards.  Under `cryptoZeros` the state `rngStateA` generates
`drawResultA`; after rotating to `seedB`, `verifyDraw` on that draw returns
`false` (the hash of the *current* secret no longer matches the recorded
commitment), not `true` as the claim requires. -/
theorem claim_C8_counterexample :
    generateDraw cryptoZeros rngStateA seedEmpty 0 = some drawResultA ∧
      (rotateServerSeed cryptoZeros rngStateA seedB).1 = rngStateB ∧
      verifyDraw cryptoZeros rngStateB drawResultA = some false ∧
      verifyDraw cryptoZeros rngStateB drawResultA ≠ some true := by
  decide

/-- C8 (amended): `rotateServerSeed` *overwrites* the single stored secret
with the fresh one (the class keeps no history), and `verifyDraw` checks the
supplied commitment digest against the hash of the *current* secret only; so
after any rotation whose new secret hashes differently from a past draw's
recorded commitment digest, verification of that past draw returns `false`
instead of `true`. -/
theorem claim_C8_amended (C : Crypto) (st : RngState) (freshSeed : String)
    (dr : DrawResult) (h : C.sha256 freshSeed ≠ dr.serverSeedHash) :
    (rotateServerSeed C st freshSeed).1.serverSeed = freshSeed ∧
      verifyDraw C (rotateServerSeed C st freshSeed).1 dr = some false := by
  refine ⟨rfl, ?_⟩
  unfold verifyDraw rotateServerSeed getServerSeedHash
  simp only []
  rw [if_pos (by simpa using h)]

/-- Witness for the amended C8 at a concrete input. -/
theorem claim_C8_amended_witness :
    cryptoZeros.sha256 seedB ≠ drawResultA.serverSeedHash ∧
      ((rotateServerSeed cryptoZeros rngStateA seedB).1.serverSeed = seedB ∧
        verifyDraw cryptoZeros (rotateServerSeed cryptoZeros rngStateA seedB).1
          drawResultA = some false) :=
  ⟨by decide, claim_C8_amended cryptoZeros rngStateA seedB drawResultA (by decide)⟩

/-! ## Claim C9 -/

set_option maxRecDepth 8000 in
/-- C9: the source computes the hypergeometric probability in binary64
floating point (`combination` multiplies and divides `result` in a loop and
`Math.round`s it), and at `(spotCount, matchCount, poolSize, drawSize) =
(10, 10, 80, 20)` the result is **not** the exact rational
`C(10,10) · C(70,10) / C(80,20)`: `C(80,20) = 3535316142212174320` needs 62
significand bits, so `combination(80, 20)` returns the rounded loop value
`3535316142212173824`, and the final division yields the dyadic rational
`4239245540486559 / 2^75 ≈ 1.1221189513415561e-7`, whereas the exact value
`17 / 151499090 ≈ 1.122118951341556e-7` is not a dyadic rational at all. -/
theorem claim_C9_float_probability_not_exact :
    (calculateMatchProbabilityF 10 10 80 20).toRat ≠
      ((Nat.choose 10 10 : ℚ) * (Nat.choose 70 10 : ℚ)) /
        (Nat.choose 80 20 : ℚ) := by
  have hval : calculateMatchProbabilityF 10 10 80 20 =
      ⟨8478491080973118, 75557863725914323419136⟩ := by
    decide
  have h1 : Nat.choose 10 10 = 1 := Nat.choose_self 10
  have h2 : Nat.choose 70 10 = 396704524216 := by
    rw [Nat.choose_eq_descFactorial_div_factorial]
    rfl
  have h3 : Nat.choose 80 20 = 3535316142212174320 := by
    rw [Nat.choose_eq_descFactorial_div_factorial]
    rfl
  rw [hval, h1, h2, h3]
  simp only [QF.toRat]
  push_cast
  norm_num

/-! ## Helper lemmas about the settlement state machine -/

/-- `find?` commutes with a map that does not change the predicate's verdict. -/
theorem find?_map_pred {α : Type} (g : α → α) (p : α → Bool)
    (h : ∀ a, p (g a) = p a) :
    ∀ l : List α, (l.map g).find? p = (l.find? p).map g := by
  intro l
  induction l with
  | nil => rfl
  | cons a t ih =>
    by_cases ha : p a = true
    · simp [List.find?_cons, h a, ha]
    · have ha' : p a = false := by simpa using ha
      simp [List.find?_cons, h a, ha', ih]

/-- `find?` skips a block in which every element fails the predicate. -/
theorem find?_append_left_none {α : Type} (p : α → Bool) :
    ∀ l₁ l₂ : List α, (∀ a ∈ l₁, p a = false) →
      (l₁ ++ l₂).find? p = l₂.find? p := by
  intro l₁
  induction l₁ with
  | nil => intro l₂ _; rfl
  | cons a t ih =>
    intro l₂ h
    have ha := h a (by simp)
    simp only [List.cons_append, List.find?_cons, ha]
    exact ih l₂ (fun x hx => h x (by simp [hx]))

/-- With pairwise-distinct ticket ids, looking a member ticket up by its id
finds exactly that ticket. -/
theorem find?_of_mem_nodup_ids :
    ∀ (l : List Ticket) (t : Ticket), t ∈ l → (l.map (·.id)).Nodup →
      l.find? (fun x => x.id == t.id) = some t := by
  intro l
  induction l with
  | nil => intro t ht; simp at ht
  | cons a rest ih =>
    intro t ht hnd
    simp only [List.map_cons, List.nodup_cons] at hnd
    rcases List.mem_cons.mp ht with rfl | hmem
    · simp [List.find?_cons]
    · have hne : a.id ≠ t.id := by
        intro he
        exact hnd.1 (he ▸ List.mem_map_of_mem (·.id) hmem)
      have hne' : (a.id == t.id) = false := by simpa using hne
      simp only [List.find?_cons, hne']
      exact ih t hmem hnd.2

/-- Mapping, then projecting a field the map preserves, is just projecting. -/
theorem map_map_of_pres {α β : Type} (f : α → β) (g : α → α)
    (h : ∀ a, f (g a) = f a) : ∀ l : List α, (l.map g).map f = l.map f := by
  intro l
  induction l with
  | nil => rfl
  | cons a t ih => simp [h a, ih]

/-- `getUserWallet` changes only the wallet table (and the id counter). -/
theorem getUserWallet_proj (s : Db) (u : Nat) :
    ((getUserWallet s u).1).draws = s.draws ∧
    ((getUserWallet s u).1).tickets = s.tickets ∧
    ((getUserWallet s u).1).settlements = s.settlements ∧
    ((getUserWallet s u).1).txns = s.txns := by
  unfold getUserWallet
  split <;> exact ⟨rfl, rfl, rfl, rfl⟩

/-- One settlement insertion raises the settlement count of exactly the
settled ticket. -/
theorem settlementCount_addSettlement (s : Db) (t : Ticket) (d : Draw)
    (m : Nat) (p : ℤ) (x : Nat) :
    settlementCount (addSettlement s t d m p) x =
      settlementCount s x + (if t.id = x then 1 else 0) := by
  by_cases h : t.id = x <;>
    simp [settlementCount, addSettlement, List.filter_append, h]

/-- One transaction insertion raises the payout-transaction count of exactly
the referenced ticket, when it is a payout transaction. -/
theorem payoutTxnCount_addTxn (s : Db) (wid : Nat) (ty : TxnType)
    (amt b1 b2 : ℤ) (ref x : Nat) :
    payoutTxnCount (addTxn s wid ty amt b1 b2 ref) x =
      payoutTxnCount s x + (if ty = TxnType.payout ∧ ref = x then 1 else 0) := by
  by_cases hty : ty = TxnType.payout
  · by_cases hr : ref = x <;>
      simp [payoutTxnCount, addTxn, List.filter_append, hty, hr]
  · simp [payoutTxnCount, addTxn, List.filter_append, hty]

/-- Marking a present ticket id settled makes its looked-up status
`settled`. -/
theorem ticketStatusOf_markTicketSettled_self (s : Db) (tid : Nat)
    (h : tid ∈ s.tickets.map (·.id)) :
    ticketStatusOf (markTicketSettled s tid) tid = some TicketStatus.settled := by
  have hpres : ∀ a : Ticket,
      ((if a.id == tid then { a with status := TicketStatus.settled } else a).id == tid) =
        (a.id == tid) := by
    intro a
    by_cases ha : a.id = tid <;> simp [ha]
  obtain ⟨e, he, hid⟩ := List.mem_map.mp h
  have hsome : ∃ e', s.tickets.find? (fun x => x.id == tid) = some e' := by
    have : (s.tickets.find? (fun x => x.id == tid)).isSome := by
      rw [List.find?_isSome]
      exact ⟨e, he, by simpa using hid⟩
    exact Option.isSome_iff_exists.mp this
  obtain ⟨e', he'⟩ := hsome
  have hpe := List.find?_some he'
  have hex : e'.id = tid := by simpa using hpe
  simp only [ticketStatusOf, markTicketSettled]
  rw [find?_map_pred _ _ hpres, he']
  simp [hex]

/-- Marking some other ticket id settled leaves a ticket's looked-up status
unchanged. -/
theorem ticketStatusOf_markTicketSettled_other (s : Db) (tid x : Nat)
    (hx : x ≠ tid) :
    ticketStatusOf (markTicketSettled s tid) x = ticketStatusOf s x := by
  have hpres : ∀ a : Ticket,
      ((if a.id == tid then { a with status := TicketStatus.settled } else a).id == x) =
        (a.id == x) := by
    intro a
    by_cases ha : a.id = tid <;> simp [ha]
  simp only [ticketStatusOf, markTicketSettled]
  rw [find?_map_pred _ _ hpres]
  cases he : s.tickets.find? (fun a => a.id == x) with
  | none => rfl
  | some e =>
    have hpe := List.find?_some he
    have hex : e.id = x := by simpa using hpe
    have hne : e.id ≠ tid := by omega
    simp [hne]

@[simp]
theorem addSettlement_draws (s : Db) (t : Ticket) (d : Draw) (m : Nat) (p : ℤ) :
    (addSettlement s t d m p).draws = s.draws := rfl

@[simp]
theorem addSettlement_tickets (s : Db) (t : Ticket) (d : Draw) (m : Nat) (p : ℤ) :
    (addSettlement s t d m p).tickets = s.tickets := rfl

@[simp]
theorem addSettlement_txns (s : Db) (t : Ticket) (d : Draw) (m : Nat) (p : ℤ) :
    (addSettlement s t d m p).txns = s.txns := rfl

@[simp]
theorem addSettlement_wallets (s : Db) (t : Ticket) (d : Draw) (m : Nat) (p : ℤ) :
    (addSettlement s t d m p).wallets = s.wallets := rfl

@[simp]
theorem markTicketSettled_draws (s : Db) (tid : Nat) :
    (markTicketSettled s tid).draws = s.draws := rfl

@[simp]
theorem markTicketSettled_settlements (s : Db) (tid : Nat) :
    (markTicketSettled s tid).settlements = s.settlements := rfl

@[simp]
theorem markTicketSettled_txns (s : Db) (tid : Nat) :
    (markTicketSettled s tid).txns = s.txns := rfl

@[simp]
theorem markTicketSettled_wallets (s : Db) (tid : Nat) :
    (markTicketSettled s tid).wallets = s.wallets := rfl

@[simp]
theorem setWalletBalance_draws (s : Db) (wid : Nat) (b : ℤ) :
    (setWalletBalance s wid b).draws = s.draws := rfl

@[simp]
theorem setWalletBalance_tickets (s : Db) (wid : Nat) (b : ℤ) :
    (setWalletBalance s wid b).tickets = s.tickets := rfl

@[simp]
theorem setWalletBalance_settlements (s : Db) (wid : Nat) (b : ℤ) :
    (setWalletBalance s wid b).settlements = s.settlements := rfl

@[simp]
theorem setWalletBalance_txns (s : Db) (wid : Nat) (b : ℤ) :
    (setWalletBalance s wid b).txns = s.txns := rfl

@[simp]
theorem addTxn_draws (s : Db) (w : Nat) (ty : TxnType) (a b1 b2 : ℤ) (r : Nat) :
    (addTxn s w ty a b1 b2 r).draws = s.draws := rfl

@[simp]
theorem addTxn_tickets (s : Db) (w : Nat) (ty : TxnType) (a b1 b2 : ℤ) (r : Nat) :
    (addTxn s w ty a b1 b2 r).tickets = s.tickets := rfl

@[simp]
theorem addTxn_settlements (s : Db) (w : Nat) (ty : TxnType) (a b1 b2 : ℤ) (r : Nat) :
    (addTxn s w ty a b1 b2 r).settlements = s.settlements := rfl

@[simp]
theorem addTxn_wallets (s : Db) (w : Nat) (ty : TxnType) (a b1 b2 : ℤ) (r : Nat) :
    (addTxn s w ty a b1 b2 r).wallets = s.wallets := rfl

@[simp]
theorem getUserWallet_draws (s : Db) (u : Nat) :
    ((getUserWallet s u).1).draws = s.draws := (getUserWallet_proj s u).1

@[simp]
theorem getUserWallet_tickets (s : Db) (u : Nat) :
    ((getUserWallet s u).1).tickets = s.tickets := (getUserWallet_proj s u).2.1

@[simp]
theorem getUserWallet_settlements (s : Db) (u : Nat) :
    ((getUserWallet s u).1).settlements = s.settlements :=
  (getUserWallet_proj s u).2.2.1

@[simp]
theorem getUserWallet_txns (s : Db) (u : Nat) :
    ((getUserWallet s u).1).txns = s.txns := (getUserWallet_proj s u).2.2.2

/-- Marking a ticket settled does not change the ticket-id column. -/
theorem tickets_ids_markTicketSettled (s : Db) (tid : Nat) :
    (markTicketSettled s tid).tickets.map (·.id) = s.tickets.map (·.id) := by
  apply map_map_of_pres
  intro a
  by_cases ha : a.id = tid <;> simp [markTicketSettled, ha]

/-- The ticket-id column is untouched by every prefix of the settlement
statement sequence. -/
theorem tickets_ids_settleTicketWrites (s : Db) (t : Ticket) (d : Draw)
    (m : Nat) (p : ℤ) (k : Nat) :
    (settleTicketWrites s t d m p k).tickets.map (·.id) =
      s.tickets.map (·.id) := by
  unfold settleTicketWrites
  split
  · rfl
  split
  · rfl
  split
  · exact tickets_ids_markTicketSettled _ _
  split
  · exact tickets_ids_markTicketSettled _ _
  split
  · rw [getUserWallet_tickets]
    exact tickets_ids_markTicketSettled _ _
  split
  · rw [setWalletBalance_tickets, getUserWallet_tickets]
    exact tickets_ids_markTicketSettled _ _
  · rw [addTxn_tickets, setWalletBalance_tickets, getUserWallet_tickets]
    exact tickets_ids_markTicketSettled _ _

/-- The ticket-id column is untouched by every prefix of `settleTicketUpTo`. -/
theorem tickets_ids_settleTicketUpTo (s : Db) (t : Ticket) (d : Draw) (k : Nat) :
    (settleTicketUpTo s t d k).tickets.map (·.id) = s.tickets.map (·.id) := by
  unfold settleTicketUpTo
  split
  · rfl
  · exact tickets_ids_settleTicketWrites _ _ _ _ _ _

/-- The looked-up ticket status depends only on the ticket table. -/
theorem ticketStatusOf_congr (s₁ s₂ : Db) (h : s₁.tickets = s₂.tickets)
    (x : Nat) : ticketStatusOf s₁ x = ticketStatusOf s₂ x := by
  simp [ticketStatusOf, h]

/-- The settlement count depends only on the settlement table. -/
theorem settlementCount_congr (s₁ s₂ : Db) (h : s₁.settlements = s₂.settlements)
    (x : Nat) : settlementCount s₁ x = settlementCount s₂ x := by
  simp [settlementCount, h]

/-- The payout-transaction count depends only on the transaction table. -/
theorem payoutTxnCount_congr (s₁ s₂ : Db) (h : s₁.txns = s₂.txns)
    (x : Nat) : payoutTxnCount s₁ x = payoutTxnCount s₂ x := by
  simp [payoutTxnCount, h]

/-- A complete settlement run adds exactly one settlement row, referencing
the settled ticket. -/
theorem settlementCount_settleTicketWrites5 (s : Db) (t : Ticket) (d : Draw)
    (m : Nat) (p : ℤ) (x : Nat) :
    settlementCount (settleTicketWrites s t d m p 5) x =
      settlementCount s x + (if t.id = x then 1 else 0) := by
  unfold settleTicketWrites
  norm_num
  split
  · rw [settlementCount_congr _ (addSettlement s t d m p) (by simp)]
    exact settlementCount_addSettlement s t d m p x
  · rw [settlementCount_congr _ (addSettlement s t d m p) (by simp)]
    exact settlementCount_addSettlement s t d m p x

/-- A complete settlement run adds exactly one payout transaction referencing
the settled ticket when the payout is positive, and none otherwise. -/
theorem payoutTxnCount_settleTicketWrites5 (s : Db) (t : Ticket) (d : Draw)
    (m : Nat) (p : ℤ) (x : Nat) :
    payoutTxnCount (settleTicketWrites s t d m p 5) x =
      payoutTxnCount s x + (if 0 < p ∧ t.id = x then 1 else 0) := by
  unfold settleTicketWrites
  norm_num
  split
  · have hnp : ¬ (0 < p ∧ t.id = x) := by
      intro hc
      omega
    rw [payoutTxnCount_congr _ s (by simp)]
    simp [hnp]
  · rw [payoutTxnCount_addTxn]
    rw [payoutTxnCount_congr _ s (by simp)]
    have hp : 0 < p := by omega
    by_cases hx : t.id = x
    · simp [hx, hp]
    · simp [hx]

/-- A complete settlement run marks the settled ticket `settled`. -/
theorem ticketStatusOf_settleTicketWrites5_self (s : Db) (t : Ticket)
    (d : Draw) (m : Nat) (p : ℤ) (h : t.id ∈ s.tickets.map (·.id)) :
    ticketStatusOf (settleTicketWrites s t d m p 5) t.id =
      some TicketStatus.settled := by
  have hmem : t.id ∈ (addSettlement s t d m p).tickets.map (·.id) := by
    simpa using h
  unfold settleTicketWrites
  norm_num
  split
  · exact ticketStatusOf_markTicketSettled_self _ _ hmem
  · rw [ticketStatusOf_congr _
      (markTicketSettled (addSettlement s t d m p) t.id) (by simp)]
    exact ticketStatusOf_markTicketSettled_self _ _ hmem

/-- A complete settlement run leaves every other ticket's status unchanged. -/
theorem ticketStatusOf_settleTicketWrites5_other (s : Db) (t : Ticket)
    (d : Draw) (m : Nat) (p : ℤ) (x : Nat) (hx : x ≠ t.id) :
    ticketStatusOf (settleTicketWrites s t d m p 5) x = ticketStatusOf s x := by
  unfold settleTicketWrites
  norm_num
  split
  · rw [ticketStatusOf_markTicketSettled_other _ _ _ hx]
    exact ticketStatusOf_congr _ s rfl x
  · rw [ticketStatusOf_congr _
      (markTicketSettled (addSettlement s t d m p) t.id) (by simp)]
    rw [ticketStatusOf_markTicketSettled_other _ _ _ hx]
    exact ticketStatusOf_congr _ s rfl x

/-- No settlement statement touches the draw table. -/
theorem draws_settleTicketWrites (s : Db) (t : Ticket) (d : Draw) (m : Nat)
    (p : ℤ) (k : Nat) : (settleTicketWrites s t d m p k).draws = s.draws := by
  unfold settleTicketWrites
  split
  · rfl
  split
  · rfl
  split
  · rfl
  split
  · rfl
  split
  · simp
  split
  · simp
  · simp

/-- For a valid spot size, `settleTicket` succeeds and runs the whole
statement sequence. -/
theorem settleTicket_ok (s : Db) (t : Ticket) (d : Draw) (tbl : Nat → ℤ)
    (hpt : paytableBase t.spotSize = some tbl) :
    settleTicket s t d = Except.ok (settleTicketWrites s t d
      (calculateMatches t.spots d.numbers)
      (tbl (calculateMatches t.spots d.numbers) * t.wager) 5) := by
  simp [settleTicket, settleTicketUpTo, hpt]

/-- For an invalid spot size, `settleTicket` throws before writing. -/
theorem settleTicket_err (s : Db) (t : Ticket) (d : Draw)
    (hpt : paytableBase t.spotSize = none) :
    settleTicket s t d = Except.error DbErr.invalidSpotSize := by
  simp [settleTicket, hpt]

/-- Unfolding one iteration of the settlement loop. -/
theorem settleAll_cons (d : Draw) (t : Ticket) (rest : List Ticket) (s : Db) :
    settleAll d (t :: rest) s =
      settleAll d rest
        (match settleTicket s t d with
         | Except.ok s'' => s''
         | Except.error _ => s) := rfl

/-- With a valid spot size, `payoutOf` is the source's computed payout. -/
theorem payoutOf_some (t : Ticket) (d : Draw) (tbl : Nat → ℤ)
    (hpt : paytableBase t.spotSize = some tbl) :
    payoutOf t d = tbl (calculateMatches t.spots d.numbers) * t.wager := by
  simp [payoutOf, hpt]

/-- The settlement loop never touches the draw table. -/
theorem draws_settleAll (d : Draw) :
    ∀ (ts : List Ticket) (s : Db), (settleAll d ts s).draws = s.draws := by
  intro ts
  induction ts with
  | nil => intro s; rfl
  | cons t rest ih =>
    intro s
    rw [settleAll_cons]
    cases hpt : paytableBase t.spotSize with
    | none => rw [settleTicket_err s t d hpt]; exact ih s
    | some tbl =>
      rw [settleTicket_ok s t d tbl hpt]
      rw [ih]
      exact draws_settleTicketWrites _ _ _ _ _ _

/-- The settlement loop never touches the ticket-id column. -/
theorem tickets_ids_settleAll (d : Draw) :
    ∀ (ts : List Ticket) (s : Db),
      (settleAll d ts s).tickets.map (·.id) = s.tickets.map (·.id) := by
  intro ts
  induction ts with
  | nil => intro s; rfl
  | cons t rest ih =>
    intro s
    rw [settleAll_cons]
    cases hpt : paytableBase t.spotSize with
    | none => rw [settleTicket_err s t d hpt]; exact ih s
    | some tbl =>
      rw [settleTicket_ok s t d tbl hpt]
      rw [ih]
      exact tickets_ids_settleTicketWrites _ _ _ _ _ _

/-- The settlement loop leaves tickets it does not visit untouched: status,
settlement count and payout-transaction count. -/
theorem settleAll_preserve (d : Draw) :
    ∀ (ts : List Ticket) (s : Db) (x : Nat), (∀ t ∈ ts, t.id ≠ x) →
      ticketStatusOf (settleAll d ts s) x = ticketStatusOf s x ∧
      settlementCount (settleAll d ts s) x = settlementCount s x ∧
      payoutTxnCount (settleAll d ts s) x = payoutTxnCount s x := by
  intro ts
  induction ts with
  | nil => intro s x _; exact ⟨rfl, rfl, rfl⟩
  | cons t rest ih =>
    intro s x h
    have ht : t.id ≠ x := h t (by simp)
    have hrest : ∀ t' ∈ rest, t'.id ≠ x := fun t' ht' => h t' (by simp [ht'])
    rw [settleAll_cons]
    cases hpt : paytableBase t.spotSize with
    | none => rw [settleTicket_err s t d hpt]; exact ih s x hrest
    | some tbl =>
      rw [settleTicket_ok s t d tbl hpt]
      obtain ⟨ih1, ih2, ih3⟩ := ih _ x hrest
      refine ⟨?_, ?_, ?_⟩
      · rw [ih1]
        exact ticketStatusOf_settleTicketWrites5_other _ _ _ _ _ x (by omega)
      · rw [ih2, settlementCount_settleTicketWrites5]
        simp [ht]
      · rw [ih3, payoutTxnCount_settleTicketWrites5]
        have : ¬ (0 < tbl (calculateMatches t.spots d.numbers) * t.wager ∧ t.id = x) := by
          intro hc
          exact ht hc.2
        simp [this]

/-- Per-ticket effect of the whole settlement loop: every visited ticket with
a valid spot size is marked settled, gains exactly one settlement row and
exactly one payout transaction when its payout is positive; every visited
ticket with an invalid spot size (whose settlement throws) is left exactly as
it was. -/
theorem settleAll_effects (d : Draw) :
    ∀ (ts : List Ticket) (s : Db),
      (ts.map (·.id)).Nodup →
      (∀ t ∈ ts, t.id ∈ s.tickets.map (·.id)) →
      ∀ t ∈ ts,
        (∀ tbl, paytableBase t.spotSize = some tbl →
          ticketStatusOf (settleAll d ts s) t.id = some TicketStatus.settled ∧
          settlementCount (settleAll d ts s) t.id = settlementCount s t.id + 1 ∧
          payoutTxnCount (settleAll d ts s) t.id =
            payoutTxnCount s t.id + (if 0 < payoutOf t d then 1 else 0)) ∧
        (paytableBase t.spotSize = none →
          ticketStatusOf (settleAll d ts s) t.id = ticketStatusOf s t.id ∧
          settlementCount (settleAll d ts s) t.id = settlementCount s t.id ∧
          payoutTxnCount (settleAll d ts s) t.id = payoutTxnCount s t.id) := by
  intro ts
  induction ts with
  | nil => intro s _ _ t ht; simp at ht
  | cons t₀ rest ih =>
    intro s hnd hmem t ht
    simp only [List.map_cons, List.nodup_cons] at hnd
    have hnotin : t₀.id ∉ rest.map (·.id) := hnd.1
    rcases List.mem_cons.mp ht with rfl | htr
    · -- the visited ticket is the head
      have hrest_ne : ∀ t' ∈ rest, t'.id ≠ t.id := by
        intro t' ht' he
        exact hnotin (he ▸ List.mem_map_of_mem (·.id) ht')
      constructor
      · intro tbl hpt
        rw [settleAll_cons, settleTicket_ok s t d tbl hpt]
        obtain ⟨p1, p2, p3⟩ := settleAll_preserve d rest _ t.id hrest_ne
        refine ⟨?_, ?_, ?_⟩
        · rw [p1]
          exact ticketStatusOf_settleTicketWrites5_self _ _ _ _ _
            (hmem t (by simp))
        · rw [p2, settlementCount_settleTicketWrites5]
          simp
        · rw [p3, payoutTxnCount_settleTicketWrites5]
          rw [payoutOf_some t d tbl hpt]
          by_cases hp : 0 < tbl (calculateMatches t.spots d.numbers) * t.wager
          · simp [hp]
          · simp [hp]
      · intro hpt
        rw [settleAll_cons, settleTicket_err s t d hpt]
        obtain ⟨p1, p2, p3⟩ := settleAll_preserve d rest s t.id hrest_ne
        exact ⟨p1, p2, p3⟩
    · -- the visited ticket is in the tail
      have hne : t.id ≠ t₀.id := by
        intro he
        exact hnotin (he ▸ List.mem_map_of_mem (·.id) htr)
      rw [settleAll_cons]
      cases hpt₀ : paytableBase t₀.spotSize with
      | none =>
        rw [settleTicket_err s t₀ d hpt₀]
        exact ih s hnd.2 (fun t' ht' => hmem t' (by simp [ht'])) t htr
      | some tbl₀ =>
        rw [settleTicket_ok s t₀ d tbl₀ hpt₀]
        set s₁ := settleTicketWrites s t₀ d
          (calculateMatches t₀.spots d.numbers)
          (tbl₀ (calculateMatches t₀.spots d.numbers) * t₀.wager) 5 with hs₁
        have hids : s₁.tickets.map (·.id) = s.tickets.map (·.id) :=
          tickets_ids_settleTicketWrites _ _ _ _ _ _
        have hmem' : ∀ t' ∈ rest, t'.id ∈ s₁.tickets.map (·.id) := by
          intro t' ht'
          rw [hids]
          exact hmem t' (by simp [ht'])
        have hstat : ticketStatusOf s₁ t.id = ticketStatusOf s t.id :=
          ticketStatusOf_settleTicketWrites5_other _ _ _ _ _ t.id hne
        have hsc : settlementCount s₁ t.id = settlementCount s t.id := by
          rw [settlementCount_settleTicketWrites5]
          have hne' : t₀.id ≠ t.id := fun h => hne h.symm
          simp [hne']
        have hpc : payoutTxnCount s₁ t.id = payoutTxnCount s t.id := by
          rw [payoutTxnCount_settleTicketWrites5]
          have : ¬ (0 < tbl₀ (calculateMatches t₀.spots d.numbers) * t₀.wager ∧
              t₀.id = t.id) := by
            intro hc
            exact hne hc.2.symm
          simp [this]
        obtain ⟨ha, hb⟩ := ih s₁ hnd.2 hmem' t htr
        constructor
        · intro tbl hpt
          obtain ⟨q1, q2, q3⟩ := ha tbl hpt
          exact ⟨q1, by rw [q2, hsc], by rw [q3, hpc]⟩
        · intro hpt
          obtain ⟨q1, q2, q3⟩ := hb hpt
          exact ⟨by rw [q1, hstat], by rw [q2, hsc], by rw [q3, hpc]⟩

/-- The draw lookup depends only on the draw table. -/
theorem getDrawById_congr (s₁ s₂ : Db) (h : s₁.draws = s₂.draws) (dId : Nat) :
    getDrawById s₁ dId = getDrawById s₂ dId := by
  simp [getDrawById, h]

/-- After `markDrawCompleted`, looking the draw up finds it completed. -/
theorem getDrawById_markDrawCompleted (s : Db) (dId : Nat) (d : Draw)
    (h : getDrawById s dId = some d) :
    getDrawById (markDrawCompleted s dId) dId =
      some { d with status := DrawStatus.completed } := by
  have hpres : ∀ a : Draw,
      ((if a.id == dId then { a with status := DrawStatus.completed } else a).id ==
        dId) = (a.id == dId) := by
    intro a
    by_cases ha : a.id = dId <;> simp [ha]
  simp only [getDrawById, markDrawCompleted] at h ⊢
  rw [find?_map_pred _ _ hpres, h]
  have hpe := List.find?_some h
  have hex : d.id = dId := by simpa using hpe
  simp [hex]

/-- `completeDraw` on a pending draw: mark it completed, then settle the
snapshot of its active tickets. -/
theorem completeDraw_ok (s : Db) (dId : Nat) (d : Draw)
    (hfind : getDrawById s dId = some d)
    (hpend : d.status = DrawStatus.pending) :
    completeDraw s dId = Except.ok
      (settleAll d (activeTicketsFor s dId) (markDrawCompleted s dId),
        (activeTicketsFor s dId).length) := by
  simp only [completeDraw, hfind, hpend]
  rfl

/-- A ticket in the active snapshot is an active row of the ticket table. -/
theorem activeTicketsFor_mem (s : Db) (dId : Nat) (t : Ticket)
    (ht : t ∈ activeTicketsFor s dId) :
    t ∈ s.tickets ∧ t.status = TicketStatus.active := by
  have := List.mem_filter.mp ht
  refine ⟨this.1, ?_⟩
  have hb := this.2
  simp only [Bool.and_eq_true, beq_iff_eq] at hb
  exact hb.2

/-- The active-snapshot ids inherit distinctness from the ticket table. -/
theorem activeTicketsFor_ids_nodup (s : Db) (dId : Nat)
    (hids : (s.tickets.map (·.id)).Nodup) :
    ((activeTicketsFor s dId).map (·.id)).Nodup :=
  hids.sublist ((List.filter_sublist s.tickets).map (·.id))

/-- C1: invoking `completeDraw` a second time after a first complete
settlement pass is rejected with the invalid-state error (`'Draw is not in
pending status'`) before settling any ticket, so across both invocations
every wager that was active for the draw is marked settled exactly once,
gains exactly one settlement row, and — when its payout is positive — exactly
one wallet credit (payout transaction). -/
theorem claim_C1_second_completeDraw_rejected (s : Db) (dId : Nat) (d : Draw)
    (hfind : getDrawById s dId = some d)
    (hpend : d.status = DrawStatus.pending)
    (hids : (s.tickets.map (·.id)).Nodup)
    (s' : Db) (n : Nat) (hrun : completeDraw s dId = Except.ok (s', n)) :
    completeDraw s' dId = Except.error DbErr.drawNotPending ∧
    ∀ t ∈ activeTicketsFor s dId, (paytableBase t.spotSize).isSome →
      ticketStatusOf s' t.id = some TicketStatus.settled ∧
      settlementCount s' t.id = settlementCount s t.id + 1 ∧
      payoutTxnCount s' t.id = payoutTxnCount s t.id +
        (if 0 < payoutOf t d then 1 else 0) := by
  have hchar := completeDraw_ok s dId d hfind hpend
  have heq := hchar.symm.trans hrun
  simp only [Except.ok.injEq, Prod.mk.injEq] at heq
  obtain ⟨hs', -⟩ := heq
  subst hs'
  constructor
  · have hd2 : getDrawById
        (settleAll d (activeTicketsFor s dId) (markDrawCompleted s dId)) dId =
        some { d with status := DrawStatus.completed } := by
      rw [getDrawById_congr _ (markDrawCompleted s dId)
        (draws_settleAll d _ _) dId]
      exact getDrawById_markDrawCompleted s dId d hfind
    simp [completeDraw, hd2]
  · intro t ht hpt
    obtain ⟨tbl, htbl⟩ := Option.isSome_iff_exists.mp hpt
    have hnd := activeTicketsFor_ids_nodup s dId hids
    have hmem : ∀ t' ∈ activeTicketsFor s dId,
        t'.id ∈ (markDrawCompleted s dId).tickets.map (·.id) := by
      intro t' ht'
      exact List.mem_map_of_mem (·.id) (activeTicketsFor_mem s dId t' ht').1
    have heff := (settleAll_effects d (activeTicketsFor s dId)
      (markDrawCompleted s dId) hnd hmem t ht).1 tbl htbl
    exact heff

/-- Witness for C1 at a concrete state: one pending draw, one active 2-spot
ticket, one wallet. -/
theorem claim_C1_second_completeDraw_rejected_witness :
    getDrawById dbC1 1 = some drawC1 ∧
    drawC1.status = DrawStatus.pending ∧
    (dbC1.tickets.map (·.id)).Nodup ∧
    completeDraw dbC1 1 = Except.ok (dbC1After, 1) ∧
    (completeDraw dbC1After 1 = Except.error DbErr.drawNotPending ∧
      ∀ t ∈ activeTicketsFor dbC1 1, (paytableBase t.spotSize).isSome →
        ticketStatusOf dbC1After t.id = some TicketStatus.settled ∧
        settlementCount dbC1After t.id = settlementCount dbC1 t.id + 1 ∧
        payoutTxnCount dbC1After t.id = payoutTxnCount dbC1 t.id +
          (if 0 < payoutOf t drawC1 then 1 else 0)) :=
  ⟨by decide, by decide, by decide, by decide,
    claim_C1_second_completeDraw_rejected dbC1 1 drawC1 (by decide) (by decide)
      (by decide) dbC1After 1 (by decide)⟩

/-- C2 counterexample: a round whose only wager's settlement raises an error
(here: a ticket row with spot size 0, so `calculatePayout` throws) does
*not* remain pending/Drawn — `completeDraw` still completes it, the wager
stays active with no settlement row, and a retry invocation is rejected as
not-pending instead of picking the straggler up. -/
theorem claim_C2_counterexample :
    completeDraw dbC2 1 = Except.ok (dbC2After, 1) ∧
    settleTicket (markDrawCompleted dbC2 1) ⟨10, 2, 1, [1], 0, 100,
      TicketStatus.active⟩ ⟨1, [1, 2, 3], DrawStatus.pending⟩ =
      Except.error DbErr.invalidSpotSize ∧
    drawStatusOf dbC2After 1 = some DrawStatus.completed ∧
    ticketStatusOf dbC2After 10 = some TicketStatus.active ∧
    settlementCount dbC2After 10 = 0 ∧
    completeDraw dbC2After 1 = Except.error DbErr.drawNotPending := by
  decide

/-- C2 (amended): `completeDraw` marks the round completed *before*
attempting any settlement; each active wager is attempted once and a wager
whose settlement throws is skipped without aborting the pass, but the round
ends completed regardless — a wager whose settlement failed remains active
(unsettled, no settlement row) in a completed round, rather than the round
remaining pending for a retry pass. -/
theorem claim_C2_amended (s : Db) (dId : Nat) (d : Draw)
    (hfind : getDrawById s dId = some d)
    (hpend : d.status = DrawStatus.pending)
    (hids : (s.tickets.map (·.id)).Nodup)
    (s' : Db) (n : Nat) (hrun : completeDraw s dId = Except.ok (s', n)) :
    drawStatusOf s' dId = some DrawStatus.completed ∧
    ∀ t ∈ activeTicketsFor s dId, (paytableBase t.spotSize).isNone →
      ticketStatusOf s' t.id = some TicketStatus.active ∧
      settlementCount s' t.id = settlementCount s t.id := by
  have hchar := completeDraw_ok s dId d hfind hpend
  have heq := hchar.symm.trans hrun
  simp only [Except.ok.injEq, Prod.mk.injEq] at heq
  obtain ⟨hs', -⟩ := heq
  subst hs'
  constructor
  · have hd2 : getDrawById
        (settleAll d (activeTicketsFor s dId) (markDrawCompleted s dId)) dId =
        some { d with status := DrawStatus.completed } := by
      rw [getDrawById_congr _ (markDrawCompleted s dId)
        (draws_settleAll d _ _) dId]
      exact getDrawById_markDrawCompleted s dId d hfind
    simp [drawStatusOf, hd2]
  · intro t ht hpt
    have hptn : paytableBase t.spotSize = none :=
      Option.isNone_iff_eq_none.mp hpt
    have hnd := activeTicketsFor_ids_nodup s dId hids
    have hmem : ∀ t' ∈ activeTicketsFor s dId,
        t'.id ∈ (markDrawCompleted s dId).tickets.map (·.id) := by
      intro t' ht'
      exact List.mem_map_of_mem (·.id) (activeTicketsFor_mem s dId t' ht').1
    obtain ⟨q1, q2, -⟩ := (settleAll_effects d (activeTicketsFor s dId)
      (markDrawCompleted s dId) hnd hmem t ht).2 hptn
    obtain ⟨htmem, hstat⟩ := activeTicketsFor_mem s dId t ht
    have hfound : s.tickets.find? (fun x => x.id == t.id) = some t :=
      find?_of_mem_nodup_ids s.tickets t htmem hids
    refine ⟨?_, q2⟩
    rw [q1]
    have hmk : ticketStatusOf (markDrawCompleted s dId) t.id =
        ticketStatusOf s t.id := rfl
    rw [hmk]
    simp [ticketStatusOf, hfound, hstat]

/-- Witness for the amended C2 at the concrete state `dbC2`. -/
theorem claim_C2_amended_witness :
    getDrawById dbC2 1 = some ⟨1, [1, 2, 3], DrawStatus.pending⟩ ∧
    (dbC2.tickets.map (·.id)).Nodup ∧
    completeDraw dbC2 1 = Except.ok (dbC2After, 1) ∧
    (drawStatusOf dbC2After 1 = some DrawStatus.completed ∧
      ∀ t ∈ activeTicketsFor dbC2 1, (paytableBase t.spotSize).isNone →
        ticketStatusOf dbC2After t.id = some TicketStatus.active ∧
        settlementCount dbC2After t.id = settlementCount dbC2 t.id) :=
  ⟨by decide, by decide, by decide,
    claim_C2_amended dbC2 1 ⟨1, [1, 2, 3], DrawStatus.pending⟩ (by decide)
      (by decide) (by decide) dbC2After 1 (by decide)⟩

/-- C3 counterexample: the draw read endpoint exposes `numbers` while the
round is still pending.  In `dbC3` the draw is `'pending'` (not yet
completed), yet `GET /api/v1/draws/:drawId` returns its committed numbers
`[4, 7]` — so the numbers are observable by any caller before the round is
drawn/completed. -/
theorem claim_C3_counterexample :
    drawStatusOf dbC3 1 = some DrawStatus.pending ∧
    drawDetailsHandler dbC3 1 = some ⟨1, [4, 7], DrawStatus.pending⟩ ∧
    (drawDetailsHandler dbC3 1).map (·.numbers) = some [4, 7] ∧
    (getDrawById dbC3 1).map (·.numbers) = some [4, 7] := by
  decide

/-- C3 (amended): `createDraw` generates and stores the outcome at creation
time with status `'pending'` and returns the full row, and the read endpoint
returns the stored `numbers` for every found draw regardless of its status —
so a round's numbers are observable the moment the round is created, while
it is still pending. -/
theorem claim_C3_amended (s : Db) (ns : List Nat)
    (hfresh : ∀ d ∈ s.draws, (d.id == s.nextId) = false) :
    (createDraw s ns).2.status = DrawStatus.pending ∧
    (createDraw s ns).2.numbers = ns ∧
    drawDetailsHandler (createDraw s ns).1 s.nextId =
      some ⟨s.nextId, ns, DrawStatus.pending⟩ := by
  refine ⟨rfl, rfl, ?_⟩
  simp only [drawDetailsHandler, getDrawById, createDraw]
  rw [find?_append_left_none _ _ _ hfresh]
  simp

/-- Witness for the amended C3 at a concrete state. -/
theorem claim_C3_amended_witness :
    (∀ d ∈ dbC3W.draws, (d.id == dbC3W.nextId) = false) ∧
    ((createDraw dbC3W [5, 6]).2.status = DrawStatus.pending ∧
      (createDraw dbC3W [5, 6]).2.numbers = [5, 6] ∧
      drawDetailsHandler (createDraw dbC3W [5, 6]).1 dbC3W.nextId =
        some ⟨dbC3W.nextId, [5, 6], DrawStatus.pending⟩) :=
  ⟨by decide, claim_C3_amended dbC3W [5, 6] (by decide)⟩

/-- A found wallet makes `getUserWallet` a pure read. -/
theorem getUserWallet_found (s : Db) (u : Nat) (w : Wallet)
    (h : s.wallets.find? (fun x => x.userId == u) = some w) :
    getUserWallet s u = (s, w) := by
  simp [getUserWallet, h]

/-- The looked-up wallet balance depends only on the wallet table. -/
theorem walletBalanceOf_congr (s₁ s₂ : Db) (h : s₁.wallets = s₂.wallets)
    (x : Nat) : walletBalanceOf s₁ x = walletBalanceOf s₂ x := by
  simp [walletBalanceOf, h]

/-- Updating a present wallet id sets its looked-up balance. -/
theorem walletBalanceOf_setWalletBalance_self (s : Db) (wid : Nat) (b : ℤ)
    (h : wid ∈ s.wallets.map (·.id)) :
    walletBalanceOf (setWalletBalance s wid b) wid = some b := by
  have hpres : ∀ a : Wallet,
      ((if a.id == wid then { a with balance := b } else a).id == wid) =
        (a.id == wid) := by
    intro a
    by_cases ha : a.id = wid <;> simp [ha]
  obtain ⟨e, he, hid⟩ := List.mem_map.mp h
  have hsome : ∃ e', s.wallets.find? (fun x => x.id == wid) = some e' := by
    have : (s.wallets.find? (fun x => x.id == wid)).isSome := by
      rw [List.find?_isSome]
      exact ⟨e, he, by simpa using hid⟩
    exact Option.isSome_iff_exists.mp this
  obtain ⟨e', he'⟩ := hsome
  have hpe := List.find?_some he'
  have hex : e'.id = wid := by simpa using hpe
  simp only [walletBalanceOf, setWalletBalance]
  rw [find?_map_pred _ _ hpres, he']
  simp [hex]

/-- The first two settlement statements alone: settlement row inserted and
ticket marked settled, before any wallet interaction. -/
theorem settleTicketWrites_two (s : Db) (t : Ticket) (d : Draw) (m : Nat)
    (p : ℤ) : settleTicketWrites s t d m p 2 =
      markTicketSettled (addSettlement s t d m p) t.id := by
  norm_num [settleTicketWrites]

/-- C10 counterexample: settlement is not all-or-nothing.  Interrupting
`settleTicket` after its second statement (`settleTicketUpTo … 2`) leaves the
ticket marked settled with its settlement row recorded but the wallet
balance untouched and no payout transaction — a state that is neither the
initial state nor the complete run. -/
theorem claim_C10_counterexample :
    ticketStatusOf (settleTicketUpTo dbC1 ticketC1 drawC1 2) 10 =
      some TicketStatus.settled ∧
    settlementCount (settleTicketUpTo dbC1 ticketC1 drawC1 2) 10 = 1 ∧
    payoutTxnCount (settleTicketUpTo dbC1 ticketC1 drawC1 2) 10 = 0 ∧
    walletBalanceOf (settleTicketUpTo dbC1 ticketC1 drawC1 2) 5 = some 1000 ∧
    settleTicketUpTo dbC1 ticketC1 drawC1 2 ≠ dbC1 ∧
    settleTicketUpTo dbC1 ticketC1 drawC1 2 ≠
      settleTicketUpTo dbC1 ticketC1 drawC1 5 := by
  decide

/-- C10 (amended): neither `settleTicket` nor `purchaseTicket` is a single
all-or-nothing unit.  An uninterrupted settlement applies the settled mark
and the credit together (`settleTicket` returns the full 5-statement run),
but an interruption after statement 2 leaves the ticket settled with no
credit; likewise an uninterrupted purchase applies the ticket insert and the
debit, but only the `reserveFunds` step is transactional — an interruption
after the ticket insert (statement 2) leaves an active ticket with no debit. -/
theorem claim_C10_amended (s : Db) (t : Ticket) (d : Draw) (tbl : Nat → ℤ)
    (hpt : paytableBase t.spotSize = some tbl)
    (hpay : 0 < payoutOf t d)
    (w : Wallet) (hw : s.wallets.find? (fun x => x.userId == t.userId) = some w)
    (hmemT : t.id ∈ s.tickets.map (·.id))
    (hmemW : w.id ∈ s.wallets.map (·.id))
    (u : Nat) (sp : List Nat) (wg : ℤ) (sz dId₂ : Nat)
    (hv : validateTicketData sp wg sz = true)
    (w₂ : Wallet) (hw₂ : s.wallets.find? (fun x => x.userId == u) = some w₂)
    (hbal : ¬ w₂.balance < wg)
    (hmemW₂ : w₂.id ∈ s.wallets.map (·.id)) :
    ticketStatusOf (settleTicketUpTo s t d 2) t.id = some TicketStatus.settled ∧
    payoutTxnCount (settleTicketUpTo s t d 2) t.id = payoutTxnCount s t.id ∧
    walletBalanceOf (settleTicketUpTo s t d 2) w.id = walletBalanceOf s w.id ∧
    settleTicket s t d = Except.ok (settleTicketUpTo s t d 5) ∧
    payoutTxnCount (settleTicketUpTo s t d 5) t.id = payoutTxnCount s t.id + 1 ∧
    walletBalanceOf (settleTicketUpTo s t d 5) w.id =
      some (w.balance + payoutOf t d) ∧
    (purchaseTicketUpTo s u sp wg sz dId₂ 2).tickets =
      s.tickets ++ [⟨s.nextId, u, dId₂, sp, sz, wg, TicketStatus.active⟩] ∧
    walletBalanceOf (purchaseTicketUpTo s u sp wg sz dId₂ 2) w₂.id =
      walletBalanceOf s w₂.id ∧
    walletBalanceOf (purchaseTicketUpTo s u sp wg sz dId₂ 3) w₂.id =
      some (w₂.balance - wg) := by
  have hpv := payoutOf_some t d tbl hpt
  have hupto : ∀ k, settleTicketUpTo s t d k = settleTicketWrites s t d
      (calculateMatches t.spots d.numbers)
      (tbl (calculateMatches t.spots d.numbers) * t.wager) k := by
    intro k
    simp [settleTicketUpTo, hpt]
  have hp' : 0 < tbl (calculateMatches t.spots d.numbers) * t.wager := by
    rw [← hpv]
    exact hpay
  have h2 := settleTicketWrites_two s t d (calculateMatches t.spots d.numbers)
    (tbl (calculateMatches t.spots d.numbers) * t.wager)
  refine ⟨?_, ?_, ?_, ?_, ?_, ?_, ?_, ?_, ?_⟩
  · rw [hupto 2, h2]
    exact ticketStatusOf_markTicketSettled_self _ _ (by simpa using hmemT)
  · rw [hupto 2, h2]
    exact payoutTxnCount_congr _ s (by simp) t.id
  · rw [hupto 2, h2]
    exact walletBalanceOf_congr _ s (by simp) w.id
  · rw [hupto 5]
    exact settleTicket_ok s t d tbl hpt
  · rw [hupto 5, payoutTxnCount_settleTicketWrites5]
    simp [hp']
  · rw [hupto 5]
    have hs₂ : (markTicketSettled (addSettlement s t d
        (calculateMatches t.spots d.numbers)
        (tbl (calculateMatches t.spots d.numbers) * t.wager)) t.id).wallets =
        s.wallets := by simp
    have hfw : (markTicketSettled (addSettlement s t d
        (calculateMatches t.spots d.numbers)
        (tbl (calculateMatches t.spots d.numbers) * t.wager)) t.id).wallets.find?
        (fun x => x.userId == t.userId) = some w := by
      rw [hs₂]
      exact hw
    have hgw := getUserWallet_found _ t.userId w hfw
    unfold settleTicketWrites
    norm_num
    rw [if_neg (by omega)]
    rw [hgw]
    rw [walletBalanceOf_congr _ (setWalletBalance
      (markTicketSettled (addSettlement s t d
        (calculateMatches t.spots d.numbers)
        (tbl (calculateMatches t.spots d.numbers) * t.wager)) t.id) w.id
      (w.balance + tbl (calculateMatches t.spots d.numbers) * t.wager))
      (by simp) w.id]
    rw [hpv]
    apply walletBalanceOf_setWalletBalance_self
    rw [hs₂]
    exact hmemW
  · have hgw := getUserWallet_found s u w₂ hw₂
    unfold purchaseTicketUpTo
    rw [if_neg (by simp [hv])]
    norm_num
    rw [hgw]
    simp [hbal]
  · have hgw := getUserWallet_found s u w₂ hw₂
    unfold purchaseTicketUpTo
    rw [if_neg (by simp [hv])]
    norm_num
    rw [hgw]
    rw [if_neg hbal]
    exact walletBalanceOf_congr _ s (by simp) w₂.id
  · have hgw := getUserWallet_found s u w₂ hw₂
    unfold purchaseTicketUpTo
    rw [if_neg (by simp [hv])]
    norm_num
    rw [hgw]
    dsimp only
    rw [if_neg hbal]
    rw [if_neg hbal]
    rw [walletBalanceOf_congr _ (setWalletBalance
      { s with tickets := s.tickets ++ [⟨s.nextId, u, dId₂, sp, sz, wg,
          TicketStatus.active⟩], nextId := s.nextId + 1 } w₂.id
      (w₂.balance - wg)) (by simp [addTxn]) w₂.id]
    apply walletBalanceOf_setWalletBalance_self
    exact hmemW₂

/-- Witness for the amended C10 at the concrete state `dbC1`. -/
theorem claim_C10_amended_witness :
    paytableBase ticketC1.spotSize = some (fun m => if m = 2 then 12 else 0) ∧
    0 < payoutOf ticketC1 drawC1 ∧
    dbC1.wallets.find? (fun x => x.userId == ticketC1.userId) = some walletC1 ∧
    ticketC1.id ∈ dbC1.tickets.map (·.id) ∧
    walletC1.id ∈ dbC1.wallets.map (·.id) ∧
    validateTicketData [3] 50 1 = true ∧
    dbC1.wallets.find? (fun x => x.userId == 2) = some walletC1 ∧
    ¬ walletC1.balance < 50 ∧
    (ticketStatusOf (settleTicketUpTo dbC1 ticketC1 drawC1 2) ticketC1.id =
        some TicketStatus.settled ∧
      payoutTxnCount (settleTicketUpTo dbC1 ticketC1 drawC1 2) ticketC1.id =
        payoutTxnCount dbC1 ticketC1.id ∧
      walletBalanceOf (settleTicketUpTo dbC1 ticketC1 drawC1 2) walletC1.id =
        walletBalanceOf dbC1 walletC1.id ∧
      settleTicket dbC1 ticketC1 drawC1 =
        Except.ok (settleTicketUpTo dbC1 ticketC1 drawC1 5) ∧
      payoutTxnCount (settleTicketUpTo dbC1 ticketC1 drawC1 5) ticketC1.id =
        payoutTxnCount dbC1 ticketC1.id + 1 ∧
      walletBalanceOf (settleTicketUpTo dbC1 ticketC1 drawC1 5) walletC1.id =
        some (walletC1.balance + payoutOf ticketC1 drawC1) ∧
      (purchaseTicketUpTo dbC1 2 [3] 50 1 1 2).tickets =
        dbC1.tickets ++ [⟨dbC1.nextId, 2, 1, [3], 1, 50, TicketStatus.active⟩] ∧
      walletBalanceOf (purchaseTicketUpTo dbC1 2 [3] 50 1 1 2) walletC1.id =
        walletBalanceOf dbC1 walletC1.id ∧
      walletBalanceOf (purchaseTicketUpTo dbC1 2 [3] 50 1 1 3) walletC1.id =
        some (walletC1.balance - 50)) :=
  ⟨rfl, by decide, by decide, by decide, by decide, by decide, by decide,
    by decide,
    claim_C10_amended dbC1 ticketC1 drawC1 (fun m => if m = 2 then 12 else 0)
      rfl (by decide) walletC1 (by decide) (by decide) (by decide)
      2 [3] 50 1 1 (by decide) walletC1 (by decide) (by decide) (by decide)⟩
